import Mathlib

/-
Verification of the CV-screening backend (rule-based candidate matcher,
ATS résumé parser, profile evaluator, job-description schema validation
and the matching API task) against its natural-language specification.

The Python sources are shallowly embedded: pure functions become Lean
functions over `String`, `List`, `Finset String` and `ℚ`; fallible code
returns `Except Unit`; calls into the Python `re` library are abstracted
behind oracle parameters where the claim does not depend on the concrete
regex semantics, and modelled concretely where it does.  Numeric literals
such as `0.85` are rational literals, mirroring the exact decimal
constants of the source.
-/

set_option maxRecDepth 4000

namespace CVScreen

/-! ## Python string primitives

`pyStrIn a b` models the Python expression `a in b` on `str` values
(substring containment).  `pyOrEmpty` models `x or ""` applied to an
optional string, `pyLower` models `str.lower()`, and `pyTruthyStr` models Python truthiness of an
optional string (`None` and `""` are falsy). -/

def pyStrIn (needle haystack : String) : Bool :=
  decide (needle.toList <:+: haystack.toList)

def pyOrEmpty (o : Option String) : String :=
  o.getD ""

/-- Models Python `str.lower()` for ASCII text (`Char.toLower` lowers
exactly the letters A-Z, as CPython does on ASCII input; all dictionary
terms and keywords in this code base are ASCII). -/
def pyLower (s : String) : String :=
  String.mk (s.data.map Char.toLower)

def pyTruthyStr (o : Option String) : Bool :=
  match o with
  | none => false
  | some s => !s.isEmpty

/-- Models Python `set(x.lower() for x in l)`: a `Finset` of lowercased
strings. -/
def toLowerSet (l : List String) : Finset String :=
  (l.map pyLower).toFinset

/-- Python `sorted(list(s))` stand-in: set iteration order in CPython is
unspecified, so the model fixes the lexicographic order when a set is
converted to a list for display purposes (only membership and emptiness
of those lists matter to the claims). -/
def setList (s : Finset String) : List String :=
  s.sort (· ≤ ·)

/-! ## Data model (matcher-relevant fields)

From `app/models/candidate.py` and `app/models/job_description.py`;
only the fields read by `CandidateMatcher` are carried.  `experience`
entries are opaque to the matcher (only their number is used). -/

structure Candidate where
  skills : List String
  tools : List String
  raw_text : Option String
  experience : List Unit
  portfolio_urls : List String
  email : Option String
  phone : Option String
  ocr_quality_score : Option ℚ

structure JobDescription where
  must_have_skills : List String
  nice_to_have_skills : List String
  required_tools : List String
  role_keywords : List String
  skill_weight : ℚ
  role_weight : ℚ
  tool_weight : ℚ
  experience_weight : ℚ
  portfolio_weight : ℚ
  quality_weight : ℚ

/-! ## Dictionaries (app/services/dictionaries.py) -/

/-- `get_role_equivalents` from `app/services/dictionaries.py`. -/
def get_role_equivalents : List (String × List String) :=
  [("bim architect", ["bim designer", "architectural designer", "design architect"]),
   ("bim manager", ["bim coordinator", "bim lead", "vdc manager"]),
   ("project manager", ["pm", "program manager", "project lead"]),
   ("software engineer", ["developer", "programmer", "software developer"]),
   ("senior developer", ["lead developer", "principal engineer", "staff engineer"]),
   ("data scientist", ["ml engineer", "data analyst", "research scientist"]),
   ("ui/ux designer", ["product designer", "ux designer", "interaction designer"])]

/-- Python `keyword in self.role_equivalents` plus the dict lookup. -/
def lookupRoleEquiv (k : String) : Option (List String) :=
  (get_role_equivalents.find? (fun p => p.1 == k)).map Prod.snd

/-! ## CandidateMatcher (app/services/matcher.py) -/

structure SkillScore where
  weighted : ℚ
  max : ℚ
  matched : Finset String
  missing : Finset String
  matched_must_have : ℕ
  total_must_have : ℕ
  matched_nice_to_have : ℕ
  total_nice_to_have : ℕ

/-- `CandidateMatcher._calculate_skill_score`. -/
def calculate_skill_score (c : Candidate) (jd : JobDescription) : SkillScore :=
  let candidate_skills := toLowerSet c.skills
  let must_have := toLowerSet jd.must_have_skills
  let nice_to_have := toLowerSet jd.nice_to_have_skills
  let matched_must_have := candidate_skills ∩ must_have
  let missing_must_have := must_have \ candidate_skills
  let matched_nice_to_have := candidate_skills ∩ nice_to_have
  let max_points := jd.skill_weight
  let must_have_weight := (0.75 : ℚ) * max_points
  let nice_to_have_weight := (0.25 : ℚ) * max_points
  let must_have_score :=
    if 0 < must_have.card then
      let match_ratio : ℚ := (matched_must_have.card : ℚ) / (must_have.card : ℚ)
      if 0 < match_ratio then
        (0.85 : ℚ) * must_have_weight + match_ratio * (0.15 : ℚ) * must_have_weight
      else 0
    else must_have_weight
  let nice_to_have_score :=
    if 0 < nice_to_have.card then
      let match_ratio : ℚ := (matched_nice_to_have.card : ℚ) / (nice_to_have.card : ℚ)
      if 0 < match_ratio then
        (0.9 : ℚ) * nice_to_have_weight + match_ratio * (0.1 : ℚ) * nice_to_have_weight
      else 0
    else nice_to_have_weight
  { weighted := must_have_score + nice_to_have_score
    max := max_points
    matched := matched_must_have ∪ matched_nice_to_have
    missing := missing_must_have
    matched_must_have := matched_must_have.card
    total_must_have := must_have.card
    matched_nice_to_have := matched_nice_to_have.card
    total_nice_to_have := nice_to_have.card }

inductive RoleMatchType where
  | exact
  | equivalent
  | no_match
  | no_requirements
  deriving DecidableEq

structure RoleScore where
  weighted : ℚ
  max : ℚ
  match_type : RoleMatchType

/-- The keyword loop of `_calculate_role_score`: keywords are tried in
list order; for each, a literal substring hit returns the full weight,
then its listed equivalents are tried at 75% weight. -/
def roleLoop (text : String) (max_points : ℚ) : List String → RoleScore
  | [] => ⟨0, max_points, .no_match⟩
  | kw :: rest =>
    if pyStrIn kw text then ⟨max_points, max_points, .exact⟩
    else
      match lookupRoleEquiv kw with
      | some eqs =>
        if eqs.any (fun e => pyStrIn (pyLower e) text) then
          ⟨max_points * (0.75 : ℚ), max_points, .equivalent⟩
        else roleLoop text max_points rest
      | none => roleLoop text max_points rest

/-- `CandidateMatcher._calculate_role_score`. -/
def calculate_role_score (c : Candidate) (jd : JobDescription) : RoleScore :=
  let max_points := jd.role_weight
  if jd.role_keywords.isEmpty then ⟨max_points, max_points, .no_requirements⟩
  else
    let candidate_text := pyLower (pyOrEmpty c.raw_text)
    roleLoop candidate_text max_points (jd.role_keywords.map pyLower)

structure ToolScore where
  weighted : ℚ
  max : ℚ
  matched : Finset String
  missing : Finset String

/-- `CandidateMatcher._calculate_tool_score`.  In the empty-requirements
branch the Python dict carries no `missing` key; since the justification
only tests its truthiness, the model uses the (equally falsy) empty
set there. -/
def calculate_tool_score (c : Candidate) (jd : JobDescription) : ToolScore :=
  let max_points := jd.tool_weight
  if jd.required_tools.isEmpty then ⟨max_points, max_points, ∅, ∅⟩
  else
    let candidate_tools := toLowerSet c.tools
    let required_tools := toLowerSet jd.required_tools
    let matched_tools := candidate_tools ∩ required_tools
    let missing_tools := required_tools \ candidate_tools
    let score :=
      if 0 < required_tools.card then
        let match_ratio : ℚ := (matched_tools.card : ℚ) / (required_tools.card : ℚ)
        if 0 < match_ratio then ((0.9 : ℚ) + match_ratio * (0.1 : ℚ)) * max_points
        else 0
      else max_points
    ⟨score, max_points, matched_tools, missing_tools⟩

structure ExperienceScore where
  weighted : ℚ
  max : ℚ
  experience_count : ℕ

/-- `CandidateMatcher._calculate_experience_score`. -/
def calculate_experience_score (c : Candidate) (jd : JobDescription) : ExperienceScore :=
  let max_points := jd.experience_weight
  let experience := c.experience
  let score := if 0 < experience.length then max_points else max_points * (0.7 : ℚ)
  ⟨min score max_points, max_points, experience.length⟩

structure PortfolioScore where
  weighted : ℚ
  max : ℚ
  portfolio_count : ℕ
  keyword_matches : ℕ

/-- `CandidateMatcher._calculate_portfolio_score`. -/
def calculate_portfolio_score (c : Candidate) (jd : JobDescription) : PortfolioScore :=
  let max_points := jd.portfolio_weight
  let portfolio_urls := c.portfolio_urls
  let raw_text := pyLower (pyOrEmpty c.raw_text)
  let jd_keywords := jd.role_keywords ++ jd.must_have_skills
  let jd_keywords_lower := jd_keywords.map pyLower
  let keyword_matches := (jd_keywords_lower.filter (fun kw => pyStrIn kw raw_text)).length
  let score1 := if 0 < portfolio_urls.length ∨ 0 < keyword_matches then max_points * (0.8 : ℚ)
    else (0 : ℚ)
  let score2 :=
    if 0 < jd_keywords.length ∧ 0 < keyword_matches then
      score1 + ((keyword_matches : ℚ) / (jd_keywords.length : ℚ)) * (max_points * (0.2 : ℚ))
    else score1
  ⟨min score2 max_points, max_points, portfolio_urls.length, keyword_matches⟩

structure QualityScore where
  weighted : ℚ
  max : ℚ
  ocr_quality : Option ℚ

/-- `CandidateMatcher._calculate_quality_score`. -/
def calculate_quality_score (c : Candidate) (jd : JobDescription) : QualityScore :=
  let max_points := jd.quality_weight
  let score := max_points * (0.9 : ℚ)
  let score := if pyTruthyStr c.email && pyTruthyStr c.phone then max_points else score
  ⟨min score max_points, max_points, c.ocr_quality_score⟩

/-- Renders the first-three list with overflow counter used by the
justification bullets. -/
def firstThree (l : List String) : String :=
  let shown := ", ".intercalate (l.take 3)
  if 3 < l.length then shown ++ " (+" ++ toString (l.length - 3) ++ " more)" else shown

/-- The quality bullet emitted by `_generate_justification`. -/
def qualityBullet : String := "✓ High-quality CV with complete contact details"

/-- `CandidateMatcher._generate_justification`, returning the bullet
list it accumulates.  The only fallible step is the final comparison
`quality_score.get('ocr_quality', 0) >= 80`: the key is always present,
and when `candidate.ocr_quality_score` is `None` the comparison
`None >= 80` raises `TypeError`, modelled as `Except.error`. -/
def generate_justification (skill : SkillScore) (role : RoleScore) (tool : ToolScore)
    (exp : ExperienceScore) (port : PortfolioScore) (qual : QualityScore) :
    Except Unit (List String) := do
  let b1 := if 0 < skill.matched_must_have then
    ["✓ Matches " ++ toString skill.matched_must_have ++ " of " ++
      toString skill.total_must_have ++ " required skills"] else []
  let b2 := if skill.missing ≠ ∅ then
    ["✗ Missing must-have skills: " ++ firstThree (setList skill.missing)] else []
  let b3 := match role.match_type with
    | .exact => ["✓ Has matching job title"]
    | .equivalent => ["✓ Has equivalent job title"]
    | _ => []
  let b4 := if tool.matched ≠ ∅ then
    ["✓ Proficient in " ++ toString tool.matched.card ++ " required tools: " ++
      firstThree (setList tool.matched)] else []
  let b5 := if tool.missing ≠ ∅ then
    ["✗ Missing tools: " ++ firstThree (setList tool.missing)] else []
  let b6 := if 0 < exp.experience_count then
    ["✓ Has " ++ toString exp.experience_count ++ " relevant experience(s)"] else []
  let b7 := if 0 < port.portfolio_count then
    ["✓ Has " ++ toString port.portfolio_count ++ " portfolio reference(s)"] else []
  let b8 ← match qual.ocr_quality with
    | none => Except.error ()
    | some q => pure (if 80 ≤ q then [qualityBullet] else [])
  return b1 ++ b2 ++ b3 ++ b4 ++ b5 ++ b6 ++ b7 ++ b8

/-- The final justification string built from the bullets. -/
def renderJustification (bullets : List String) : String :=
  if bullets.isEmpty then "• Minimal matching criteria found"
  else "\n".intercalate (bullets.map (fun b => "• " ++ b))

structure MatchResult where
  total_score : ℚ
  skill_score : ℚ
  role_score : ℚ
  tool_score : ℚ
  experience_score : ℚ
  portfolio_score : ℚ
  quality_score : ℚ
  justification : String
  matched_skills : Finset String
  missing_skills : Finset String
  matched_tools : Finset String

/-- `CandidateMatcher.match_candidate`: the six category scores, their
sum as total, and the generated justification (whose failure on a
`None` OCR quality score propagates). -/
def match_candidate (c : Candidate) (jd : JobDescription) : Except Unit MatchResult := do
  let skill := calculate_skill_score c jd
  let role := calculate_role_score c jd
  let tool := calculate_tool_score c jd
  let exp := calculate_experience_score c jd
  let port := calculate_portfolio_score c jd
  let qual := calculate_quality_score c jd
  let total := skill.weighted + role.weighted + tool.weighted + exp.weighted +
    port.weighted + qual.weighted
  let bullets ← generate_justification skill role tool exp port qual
  return { total_score := total
           skill_score := skill.weighted
           role_score := role.weighted
           tool_score := tool.weighted
           experience_score := exp.weighted
           portfolio_score := port.weighted
           quality_score := qual.weighted
           justification := renderJustification bullets
           matched_skills := skill.matched
           missing_skills := skill.missing
           matched_tools := tool.matched }

/-! ## Score bound lemmas -/

lemma curve_bounds (r sub base bonus : ℚ) (hr0 : 0 ≤ r) (hr1 : r ≤ 1) (hsub : 0 ≤ sub)
    (hb : 0 ≤ base) (hbo : 0 ≤ bonus) (h1 : base + bonus ≤ 1) :
    0 ≤ base * sub + r * bonus * sub ∧ base * sub + r * bonus * sub ≤ sub := by
  constructor
  · nlinarith [mul_nonneg hb hsub, mul_nonneg (mul_nonneg hr0 hbo) hsub]
  · nlinarith [mul_le_mul_of_nonneg_right h1 hsub,
      mul_le_mul_of_nonneg_right hr1 (mul_nonneg hbo hsub)]

lemma inter_ratio_nonneg (A B : Finset String) :
    0 ≤ ((A ∩ B).card : ℚ) / (B.card : ℚ) := by
  apply div_nonneg <;> positivity

lemma inter_ratio_le_one (A B : Finset String) (hB : 0 < B.card) :
    ((A ∩ B).card : ℚ) / (B.card : ℚ) ≤ 1 := by
  rw [div_le_one (by exact_mod_cast hB)]
  exact_mod_cast Finset.card_le_card (Finset.inter_subset_right)

lemma skill_score_bounds (c : Candidate) (jd : JobDescription) (hw : 0 ≤ jd.skill_weight) :
    0 ≤ (calculate_skill_score c jd).weighted ∧
      (calculate_skill_score c jd).weighted ≤ jd.skill_weight := by
  have hm0 := inter_ratio_nonneg (toLowerSet c.skills) (toLowerSet jd.must_have_skills)
  have hn0 := inter_ratio_nonneg (toLowerSet c.skills) (toLowerSet jd.nice_to_have_skills)
  simp only [calculate_skill_score]
  split_ifs with h1 h2 h3 h4 h5 h6
  all_goals
    first
      | (constructor <;> nlinarith [inter_ratio_le_one (toLowerSet c.skills)
            (toLowerSet jd.must_have_skills) h1,
          inter_ratio_le_one (toLowerSet c.skills) (toLowerSet jd.nice_to_have_skills)
            (by assumption)])
      | (constructor <;> nlinarith [inter_ratio_le_one (toLowerSet c.skills)
            (toLowerSet jd.must_have_skills) h1])
      | (constructor <;> nlinarith [inter_ratio_le_one (toLowerSet c.skills)
            (toLowerSet jd.nice_to_have_skills) (by assumption)])
      | (constructor <;> nlinarith)

lemma roleLoop_bounds (text : String) (mp : ℚ) (hw : 0 ≤ mp) (kws : List String) :
    0 ≤ (roleLoop text mp kws).weighted ∧ (roleLoop text mp kws).weighted ≤ mp := by
  induction kws with
  | nil => simp [roleLoop]; linarith
  | cons kw rest ih =>
    simp only [roleLoop]
    split_ifs with h1
    · simp; linarith
    · cases h : lookupRoleEquiv kw with
      | none => simpa using ih
      | some eqs =>
        simp only []
        split_ifs with h2
        · constructor <;> simp <;> nlinarith
        · simpa using ih

lemma role_score_bounds (c : Candidate) (jd : JobDescription) (hw : 0 ≤ jd.role_weight) :
    0 ≤ (calculate_role_score c jd).weighted ∧
      (calculate_role_score c jd).weighted ≤ jd.role_weight := by
  simp only [calculate_role_score]
  split_ifs with h1
  · simp; linarith
  · exact roleLoop_bounds _ _ hw _

lemma tool_weighted_eq (c : Candidate) (jd : JobDescription) :
    (calculate_tool_score c jd).weighted =
      (if jd.required_tools.isEmpty then jd.tool_weight
       else if 0 < (toLowerSet jd.required_tools).card then
         (if 0 < ((toLowerSet c.tools ∩ toLowerSet jd.required_tools).card : ℚ) /
             ((toLowerSet jd.required_tools).card : ℚ) then
           ((0.9 : ℚ) + ((toLowerSet c.tools ∩ toLowerSet jd.required_tools).card : ℚ) /
             ((toLowerSet jd.required_tools).card : ℚ) * (0.1 : ℚ)) * jd.tool_weight
          else 0)
       else jd.tool_weight) := by
  simp only [calculate_tool_score]
  split <;> rfl

lemma tool_score_bounds (c : Candidate) (jd : JobDescription) (hw : 0 ≤ jd.tool_weight) :
    0 ≤ (calculate_tool_score c jd).weighted ∧
      (calculate_tool_score c jd).weighted ≤ jd.tool_weight := by
  have hm0 := inter_ratio_nonneg (toLowerSet c.tools) (toLowerSet jd.required_tools)
  rw [tool_weighted_eq]
  split_ifs with h1 h2 h3
  · exact ⟨hw, le_refl _⟩
  · constructor <;>
      nlinarith [inter_ratio_le_one (toLowerSet c.tools) (toLowerSet jd.required_tools) h2]
  · constructor <;> nlinarith
  · exact ⟨hw, le_refl _⟩

lemma experience_weighted_eq (c : Candidate) (jd : JobDescription) :
    (calculate_experience_score c jd).weighted =
      min (if 0 < c.experience.length then jd.experience_weight
           else jd.experience_weight * (0.7 : ℚ)) jd.experience_weight := by
  simp only [calculate_experience_score]

lemma experience_score_bounds (c : Candidate) (jd : JobDescription)
    (hw : 0 ≤ jd.experience_weight) :
    0 ≤ (calculate_experience_score c jd).weighted ∧
      (calculate_experience_score c jd).weighted ≤ jd.experience_weight := by
  rw [experience_weighted_eq]
  refine ⟨le_min ?_ hw, min_le_right _ _⟩
  split_ifs with h1
  · exact hw
  · nlinarith

lemma portfolio_score_bounds (c : Candidate) (jd : JobDescription)
    (hw : 0 ≤ jd.portfolio_weight) :
    0 ≤ (calculate_portfolio_score c jd).weighted ∧
      (calculate_portfolio_score c jd).weighted ≤ jd.portfolio_weight := by
  simp only [calculate_portfolio_score]
  set km := ((jd.role_keywords ++ jd.must_have_skills).map pyLower).filter
    (fun kw => pyStrIn kw (pyLower (pyOrEmpty c.raw_text))) with hkm
  have hratio0 : (0 : ℚ) ≤ (km.length : ℚ) / (((jd.role_keywords ++ jd.must_have_skills).length : ℚ)) := by
    apply div_nonneg <;> positivity
  have hratio1 : ((km.length : ℚ)) / (((jd.role_keywords ++ jd.must_have_skills).length : ℚ)) ≤ 1 ∨
      (jd.role_keywords ++ jd.must_have_skills).length = 0 := by
    rcases Nat.eq_zero_or_pos (jd.role_keywords ++ jd.must_have_skills).length with h | h
    · exact Or.inr h
    · left
      rw [div_le_one (by exact_mod_cast h)]
      exact_mod_cast (by
        simpa [hkm, List.length_map] using
          List.length_filter_le (fun kw => pyStrIn kw (pyLower (pyOrEmpty c.raw_text)))
            ((jd.role_keywords ++ jd.must_have_skills).map pyLower))
  constructor
  · apply le_min _ hw
    split_ifs with h1 h2 h3 <;> nlinarith
  · exact min_le_right _ _

lemma quality_score_bounds (c : Candidate) (jd : JobDescription) (hw : 0 ≤ jd.quality_weight) :
    0 ≤ (calculate_quality_score c jd).weighted ∧
      (calculate_quality_score c jd).weighted ≤ jd.quality_weight := by
  simp only [calculate_quality_score]
  constructor
  · apply le_min _ hw
    split_ifs <;> nlinarith
  · exact min_le_right _ _

lemma generate_justification_ok (s : SkillScore) (r : RoleScore) (t : ToolScore)
    (e : ExperienceScore) (p : PortfolioScore) (qu : QualityScore) (q : ℚ)
    (hq : qu.ocr_quality = some q) :
    generate_justification s r t e p qu =
      Except.ok ((if 0 < s.matched_must_have then
          ["✓ Matches " ++ toString s.matched_must_have ++ " of " ++
            toString s.total_must_have ++ " required skills"] else []) ++
        (if s.missing ≠ ∅ then
          ["✗ Missing must-have skills: " ++ firstThree (setList s.missing)] else []) ++
        (match r.match_type with
          | .exact => ["✓ Has matching job title"]
          | .equivalent => ["✓ Has equivalent job title"]
          | _ => []) ++
        (if t.matched ≠ ∅ then
          ["✓ Proficient in " ++ toString t.matched.card ++ " required tools: " ++
            firstThree (setList t.matched)] else []) ++
        (if t.missing ≠ ∅ then
          ["✗ Missing tools: " ++ firstThree (setList t.missing)] else []) ++
        (if 0 < e.experience_count then
          ["✓ Has " ++ toString e.experience_count ++ " relevant experience(s)"] else []) ++
        (if 0 < p.portfolio_count then
          ["✓ Has " ++ toString p.portfolio_count ++ " portfolio reference(s)"] else []) ++
        (if 80 ≤ q then [qualityBullet] else [])) := by
  simp only [generate_justification, hq]
  rfl

/-! ## Claim C1 -/

/-- C1: for every candidate whose OCR quality score is present and every
job requirement whose six weights each lie in [0,100] and sum to 100,
`match_candidate` succeeds and produces six category scores (skill,
role, tool, experience, portfolio, quality), each lying in
[0, that category weight], and a total score equal to the sum of the
six category scores and lying in [0, 100]. -/
theorem match_candidate_score_bounds (c : Candidate) (jd : JobDescription) (q : ℚ)
    (hq : c.ocr_quality_score = some q)
    (hs : 0 ≤ jd.skill_weight ∧ jd.skill_weight ≤ 100)
    (hr : 0 ≤ jd.role_weight ∧ jd.role_weight ≤ 100)
    (ht : 0 ≤ jd.tool_weight ∧ jd.tool_weight ≤ 100)
    (he : 0 ≤ jd.experience_weight ∧ jd.experience_weight ≤ 100)
    (hp : 0 ≤ jd.portfolio_weight ∧ jd.portfolio_weight ≤ 100)
    (hqw : 0 ≤ jd.quality_weight ∧ jd.quality_weight ≤ 100)
    (hsum : jd.skill_weight + jd.role_weight + jd.tool_weight + jd.experience_weight +
      jd.portfolio_weight + jd.quality_weight = 100) :
    ∃ r : MatchResult, match_candidate c jd = Except.ok r ∧
      (0 ≤ r.skill_score ∧ r.skill_score ≤ jd.skill_weight) ∧
      (0 ≤ r.role_score ∧ r.role_score ≤ jd.role_weight) ∧
      (0 ≤ r.tool_score ∧ r.tool_score ≤ jd.tool_weight) ∧
      (0 ≤ r.experience_score ∧ r.experience_score ≤ jd.experience_weight) ∧
      (0 ≤ r.portfolio_score ∧ r.portfolio_score ≤ jd.portfolio_weight) ∧
      (0 ≤ r.quality_score ∧ r.quality_score ≤ jd.quality_weight) ∧
      r.total_score = r.skill_score + r.role_score + r.tool_score + r.experience_score +
        r.portfolio_score + r.quality_score ∧
      0 ≤ r.total_score ∧ r.total_score ≤ 100 := by
  have hqq : (calculate_quality_score c jd).ocr_quality = some q := hq
  have hgen := generate_justification_ok (calculate_skill_score c jd)
    (calculate_role_score c jd) (calculate_tool_score c jd)
    (calculate_experience_score c jd) (calculate_portfolio_score c jd)
    (calculate_quality_score c jd) q hqq
  obtain ⟨r, hrOk, e1, e2, e3, e4, e5, e6, etot⟩ :
      ∃ r : MatchResult, match_candidate c jd = Except.ok r ∧
        r.skill_score = (calculate_skill_score c jd).weighted ∧
        r.role_score = (calculate_role_score c jd).weighted ∧
        r.tool_score = (calculate_tool_score c jd).weighted ∧
        r.experience_score = (calculate_experience_score c jd).weighted ∧
        r.portfolio_score = (calculate_portfolio_score c jd).weighted ∧
        r.quality_score = (calculate_quality_score c jd).weighted ∧
        r.total_score = (calculate_skill_score c jd).weighted +
          (calculate_role_score c jd).weighted + (calculate_tool_score c jd).weighted +
          (calculate_experience_score c jd).weighted +
          (calculate_portfolio_score c jd).weighted +
          (calculate_quality_score c jd).weighted := by
    simp only [match_candidate]
    rw [hgen]
    exact ⟨_, rfl, rfl, rfl, rfl, rfl, rfl, rfl, rfl⟩
  have h1 := skill_score_bounds c jd hs.1
  have h2 := role_score_bounds c jd hr.1
  have h3 := tool_score_bounds c jd ht.1
  have h4 := experience_score_bounds c jd he.1
  have h5 := portfolio_score_bounds c jd hp.1
  have h6 := quality_score_bounds c jd hqw.1
  refine ⟨r, hrOk, ?_, ?_, ?_, ?_, ?_, ?_, ?_, ?_, ?_⟩
  · rw [e1]; exact h1
  · rw [e2]; exact h2
  · rw [e3]; exact h3
  · rw [e4]; exact h4
  · rw [e5]; exact h5
  · rw [e6]; exact h6
  · rw [etot, e1, e2, e3, e4, e5, e6]
  · rw [etot]
    linarith [h1.1, h2.1, h3.1, h4.1, h5.1, h6.1]
  · rw [etot]
    linarith [h1.2, h2.2, h3.2, h4.2, h5.2, h6.2]

/-- Concrete instance for `match_candidate_score_bounds` (weights
40/20/15/15/5/5 summing to 100, empty candidate with OCR score 92). -/
def candidateW1 : Candidate :=
  ⟨[], [], none, [], [], none, none, some 92⟩

def jdW1 : JobDescription :=
  ⟨["revit"], [], [], [], 40, 20, 15, 15, 5, 5⟩

theorem match_candidate_score_bounds_witness :
    candidateW1.ocr_quality_score = some 92 ∧
    ((0 : ℚ) ≤ 40 ∧ (40 : ℚ) ≤ 100) ∧
    (∃ r : MatchResult, match_candidate candidateW1 jdW1 = Except.ok r ∧
      (0 ≤ r.skill_score ∧ r.skill_score ≤ jdW1.skill_weight) ∧
      (0 ≤ r.role_score ∧ r.role_score ≤ jdW1.role_weight) ∧
      (0 ≤ r.tool_score ∧ r.tool_score ≤ jdW1.tool_weight) ∧
      (0 ≤ r.experience_score ∧ r.experience_score ≤ jdW1.experience_weight) ∧
      (0 ≤ r.portfolio_score ∧ r.portfolio_score ≤ jdW1.portfolio_weight) ∧
      (0 ≤ r.quality_score ∧ r.quality_score ≤ jdW1.quality_weight) ∧
      r.total_score = r.skill_score + r.role_score + r.tool_score + r.experience_score +
        r.portfolio_score + r.quality_score ∧
      0 ≤ r.total_score ∧ r.total_score ≤ 100) :=
  ⟨rfl, by norm_num,
    match_candidate_score_bounds candidateW1 jdW1 92 rfl
      (by norm_num [jdW1])
      (by norm_num [jdW1])
      (by norm_num [jdW1])
      (by norm_num [jdW1])
      (by norm_num [jdW1])
      (by norm_num [jdW1])
      (by norm_num [jdW1])⟩

/-! ## Claim C2 -/

/-- Follows the words of the spec: the must-have part of the skill
score, over a 0.75 × skill_weight sub-budget: full sub-budget when the
requirement set is empty, 0 when the match ratio is zero, and
(0.85 + 0.15 × ratio) of the sub-budget when the ratio is positive. -/
def must_have_part_spec (c : Candidate) (jd : JobDescription) : ℚ :=
  let sub_budget := (0.75 : ℚ) * jd.skill_weight
  let must_have := toLowerSet jd.must_have_skills
  if must_have.card = 0 then sub_budget
  else
    let ratio : ℚ := ((toLowerSet c.skills ∩ must_have).card : ℚ) / (must_have.card : ℚ)
    if ratio = 0 then 0 else ((0.85 : ℚ) + (0.15 : ℚ) * ratio) * sub_budget

/-- Follows the words of the spec: the nice-to-have part of the skill
score, over a 0.25 × skill_weight sub-budget, with the
(0.90 + 0.10 × ratio) curve. -/
def nice_to_have_part_spec (c : Candidate) (jd : JobDescription) : ℚ :=
  let sub_budget := (0.25 : ℚ) * jd.skill_weight
  let nice := toLowerSet jd.nice_to_have_skills
  if nice.card = 0 then sub_budget
  else
    let ratio : ℚ := ((toLowerSet c.skills ∩ nice).card : ℚ) / (nice.card : ℚ)
    if ratio = 0 then 0 else ((0.9 : ℚ) + (0.1 : ℚ) * ratio) * sub_budget

def candidateC2 : Candidate :=
  ⟨["revit"], [], none, [], [], none, none, none⟩

def jdC2 : JobDescription :=
  ⟨["revit", "autocad"], [], [], [], 40, 20, 15, 15, 5, 5⟩

/-- C2: for every candidate and job, the computed skill score is the
sum of the spec-mandated must-have part (0.75 sub-budget, 0.85/0.15
curve) and nice-to-have part (0.25 sub-budget, 0.90/0.10 curve), with
an empty requirement set awarding its full sub-budget; in particular,
for must-have skills revit and autocad, candidate skill revit and
skill_weight 40, the must-have part is 27.75. -/
theorem skill_score_generous_curve :
    (∀ (c : Candidate) (jd : JobDescription),
      (calculate_skill_score c jd).weighted =
        must_have_part_spec c jd + nice_to_have_part_spec c jd) ∧
    must_have_part_spec candidateC2 jdC2 = 27.75 := by
  constructor
  · intro c jd
    have hm0 := inter_ratio_nonneg (toLowerSet c.skills) (toLowerSet jd.must_have_skills)
    have hn0 := inter_ratio_nonneg (toLowerSet c.skills) (toLowerSet jd.nice_to_have_skills)
    simp only [calculate_skill_score, must_have_part_spec, nice_to_have_part_spec]
    congr 1
    · set n := (toLowerSet jd.must_have_skills).card with hn
      set m := (toLowerSet c.skills ∩ toLowerSet jd.must_have_skills).card with hm
      rcases Nat.eq_zero_or_pos n with h | h
      · rw [if_neg (show ¬0 < n by omega), if_pos h]
      · rw [if_pos h, if_neg (show ¬n = 0 by omega)]
        rcases eq_or_lt_of_le hm0 with hr | hr
        · rw [if_neg (not_lt.mpr hr.ge), if_pos hr.symm]
        · rw [if_pos hr, if_neg hr.ne.symm]
          ring
    · set n := (toLowerSet jd.nice_to_have_skills).card with hn
      set m := (toLowerSet c.skills ∩ toLowerSet jd.nice_to_have_skills).card with hm
      rcases Nat.eq_zero_or_pos n with h | h
      · rw [if_neg (show ¬0 < n by omega), if_pos h]
      · rw [if_pos h, if_neg (show ¬n = 0 by omega)]
        rcases eq_or_lt_of_le hn0 with hr | hr
        · rw [if_neg (not_lt.mpr hr.ge), if_pos hr.symm]
        · rw [if_pos hr, if_neg hr.ne.symm]
          ring
  · have h1 : (toLowerSet jdC2.must_have_skills).card = 2 := by decide
    have h2 : (toLowerSet candidateC2.skills ∩ toLowerSet jdC2.must_have_skills).card = 1 := by
      decide
    simp only [must_have_part_spec, h1, h2]
    norm_num [jdC2]

/-! ## Claim C8 -/

inductive RoleOutcome where
  | literalHit
  | equivalentHit
  | noHit
  deriving DecidableEq

/-- Follows the amended claim's words: scan the job's role keywords in
their listed order and return the outcome of the first keyword that
matches the candidate text, where each keyword is first tried literally
and then through its listed equivalent phrases. -/
def first_role_outcome (text : String) : List String → RoleOutcome
  | [] => .noHit
  | kw :: rest =>
    if pyStrIn kw text then .literalHit
    else if ((lookupRoleEquiv kw).getD []).any (fun e => pyStrIn (pyLower e) text) then
      .equivalentHit
    else first_role_outcome text rest

/-- Follows the amended claim's words: full role weight when the job
lists no role keywords; otherwise the first keyword (in list order)
with a literal or equivalent hit decides the score — full weight for a
literal hit, 75% for an equivalent hit — and zero with no hit at all. -/
def role_score_spec_amended (c : Candidate) (jd : JobDescription) : ℚ :=
  if jd.role_keywords.isEmpty then jd.role_weight
  else
    match first_role_outcome (pyLower (pyOrEmpty c.raw_text)) (jd.role_keywords.map pyLower) with
    | .literalHit => jd.role_weight
    | .equivalentHit => jd.role_weight * (0.75 : ℚ)
    | .noHit => 0

lemma roleLoop_eq_outcome (text : String) (mp : ℚ) (kws : List String) :
    (roleLoop text mp kws).weighted =
      match first_role_outcome text kws with
      | .literalHit => mp
      | .equivalentHit => mp * (0.75 : ℚ)
      | .noHit => 0 := by
  induction kws with
  | nil => rfl
  | cons kw rest ih =>
    cases h : lookupRoleEquiv kw with
    | none =>
      simp only [roleLoop, first_role_outcome, h, Option.getD_none, List.any_nil,
        Bool.false_eq_true, if_false]
      split_ifs with h1
      · rfl
      · exact ih
    | some eqs =>
      simp only [roleLoop, first_role_outcome, h, Option.getD_some]
      split_ifs with h1 h2
      · rfl
      · rfl
      · exact ih

def candidateC8 : Candidate :=
  ⟨[], [], some "pm draftsman", [], [], none, none, none⟩

def jdC8 : JobDescription :=
  ⟨[], [], [], ["project manager", "draftsman"], 40, 20, 15, 15, 5, 5⟩

/-- C8 counterexample: the job lists the role keywords
"project manager" and "draftsman" with role weight 20; the candidate
text "pm draftsman" contains "draftsman" literally, yet the role score
is 15 (the 75% equivalent award triggered by "pm", an equivalent of the
earlier keyword "project manager"), not the full weight 20. -/
theorem role_score_literal_keyword_counterexample :
    pyStrIn (pyLower "draftsman") (pyLower (pyOrEmpty candidateC8.raw_text)) = true ∧
    "draftsman" ∈ jdC8.role_keywords ∧
    jdC8.role_weight = 20 ∧
    (calculate_role_score candidateC8 jdC8).weighted = 15 ∧
    (15 : ℚ) ≠ 20 := by
  refine ⟨by decide, by decide, rfl, ?_, by norm_num⟩
  have hrole : calculate_role_score candidateC8 jdC8 =
      ⟨jdC8.role_weight * (0.75 : ℚ), jdC8.role_weight, .equivalent⟩ := by
    simp only [calculate_role_score]
    have hne : jdC8.role_keywords.isEmpty = false := by decide
    rw [hne]
    have htext : pyLower (pyOrEmpty candidateC8.raw_text) = "pm draftsman" := by decide
    have hmap : jdC8.role_keywords.map pyLower = ["project manager", "draftsman"] := by decide
    rw [htext, hmap]
    simp only [roleLoop]
    have h1 : pyStrIn "project manager" "pm draftsman" = false := by decide
    have h2 : lookupRoleEquiv "project manager" =
        some ["pm", "program manager", "project lead"] := by decide
    have h3 : (["pm", "program manager", "project lead"].any
        (fun e => pyStrIn (pyLower e) "pm draftsman")) = true := by decide
    rw [h1, h2]
    simp only [Bool.false_eq_true, if_false, h3, if_true]
  rw [hrole]
  show jdC8.role_weight * (0.75 : ℚ) = 15
  norm_num [jdC8]

/-- C8 amended: for every candidate and job, the role score equals the
amended specification: keywords are scanned in list order, each tried
literally (full weight) and then through its listed equivalents (75%
weight), the first hit deciding the score; full weight with no role
keywords, zero with no hit.  In particular an equivalent hit of an
earlier keyword takes precedence over a literal hit of a later one. -/
theorem role_score_first_keyword_wins (c : Candidate) (jd : JobDescription) :
    (calculate_role_score c jd).weighted = role_score_spec_amended c jd := by
  simp only [calculate_role_score, role_score_spec_amended]
  split_ifs with h1
  · rfl
  · exact roleLoop_eq_outcome _ _ _

/-! ## Claim C10 -/

lemma ne_qb_of_head (s : String) (n : ℕ)
    (h : s.data.take n ≠ qualityBullet.data.take n) : s ≠ qualityBullet :=
  fun he => h (by rw [he])

lemma not_mem_ite_singleton (cond : Prop) [Decidable cond] (s : String)
    (hne : s ≠ qualityBullet) : qualityBullet ∉ (if cond then [s] else []) := by
  split_ifs
  · simp only [List.mem_singleton]
    exact fun h => hne h.symm
  · simp

lemma qb_take_three : qualityBullet.data.take 3 = ['✓', ' ', 'H'] := by decide

lemma qb_take_four : qualityBullet.data.take 4 = ['✓', ' ', 'H', 'i'] := by decide

/-- C10: whenever the candidate's OCR quality score is a number q, the
justification bullet list is produced successfully and contains the
"High-quality CV with complete contact details" bullet exactly when
q ≥ 80 — with no condition at all on the email or phone fields — while
the quality category score itself is the full quality weight exactly
when both email and phone are truthy and 90% of it otherwise,
independent of the OCR quality score. -/
theorem justification_quality_bullet_iff (c : Candidate) (jd : JobDescription) (q : ℚ)
    (hq : c.ocr_quality_score = some q) (hw : 0 ≤ jd.quality_weight) :
    ∃ bs, generate_justification (calculate_skill_score c jd) (calculate_role_score c jd)
        (calculate_tool_score c jd) (calculate_experience_score c jd)
        (calculate_portfolio_score c jd) (calculate_quality_score c jd) = Except.ok bs ∧
      ((qualityBullet ∈ bs) ↔ 80 ≤ q) ∧
      (calculate_quality_score c jd).weighted =
        (if pyTruthyStr c.email && pyTruthyStr c.phone then jd.quality_weight
         else jd.quality_weight * (0.9 : ℚ)) := by
  have hqq : (calculate_quality_score c jd).ocr_quality = some q := hq
  refine ⟨_, generate_justification_ok _ _ _ _ _ _ q hqq, ?_, ?_⟩
  · have hn1 := not_mem_ite_singleton (0 < (calculate_skill_score c jd).matched_must_have)
      ("✓ Matches " ++ toString (calculate_skill_score c jd).matched_must_have ++ " of " ++
        toString (calculate_skill_score c jd).total_must_have ++ " required skills")
      (by
        apply ne_qb_of_head _ 3
        simp only [String.data_append, List.append_assoc]
        rw [List.take_append_of_le_length (by decide), qb_take_three]
        decide)
    have hn2 := not_mem_ite_singleton ((calculate_skill_score c jd).missing ≠ ∅)
      ("✗ Missing must-have skills: " ++ firstThree (setList (calculate_skill_score c jd).missing))
      (by
        apply ne_qb_of_head _ 3
        simp only [String.data_append, List.append_assoc]
        rw [List.take_append_of_le_length (by decide), qb_take_three]
        decide)
    have hn4 := not_mem_ite_singleton ((calculate_tool_score c jd).matched ≠ ∅)
      ("✓ Proficient in " ++ toString (calculate_tool_score c jd).matched.card ++
        " required tools: " ++ firstThree (setList (calculate_tool_score c jd).matched))
      (by
        apply ne_qb_of_head _ 3
        simp only [String.data_append, List.append_assoc]
        rw [List.take_append_of_le_length (by decide), qb_take_three]
        decide)
    have hn5 := not_mem_ite_singleton ((calculate_tool_score c jd).missing ≠ ∅)
      ("✗ Missing tools: " ++ firstThree (setList (calculate_tool_score c jd).missing))
      (by
        apply ne_qb_of_head _ 3
        simp only [String.data_append, List.append_assoc]
        rw [List.take_append_of_le_length (by decide), qb_take_three]
        decide)
    have hn6 := not_mem_ite_singleton (0 < (calculate_experience_score c jd).experience_count)
      ("✓ Has " ++ toString (calculate_experience_score c jd).experience_count ++
        " relevant experience(s)")
      (by
        apply ne_qb_of_head _ 4
        simp only [String.data_append, List.append_assoc]
        rw [List.take_append_of_le_length (by decide), qb_take_four]
        decide)
    have hn7 := not_mem_ite_singleton (0 < (calculate_portfolio_score c jd).portfolio_count)
      ("✓ Has " ++ toString (calculate_portfolio_score c jd).portfolio_count ++
        " portfolio reference(s)")
      (by
        apply ne_qb_of_head _ 4
        simp only [String.data_append, List.append_assoc]
        rw [List.take_append_of_le_length (by decide), qb_take_four]
        decide)
    have hn3 : qualityBullet ∉ (match (calculate_role_score c jd).match_type with
        | RoleMatchType.exact => ["✓ Has matching job title"]
        | RoleMatchType.equivalent => ["✓ Has equivalent job title"]
        | _ => ([] : List String)) := by
      cases (calculate_role_score c jd).match_type <;> simp <;> decide
    simp only [List.mem_append, or_iff_right_of_imp, not_or]
    constructor
    · intro hmem
      rcases hmem with ((((((h | h) | h) | h) | h) | h) | h) | h
      · exact absurd h hn1
      · exact absurd h hn2
      · exact absurd h hn3
      · exact absurd h hn4
      · exact absurd h hn5
      · exact absurd h hn6
      · exact absurd h hn7
      · by_contra hq80
        rw [if_neg hq80] at h
        simp at h
    · intro h80
      refine Or.inr ?_
      rw [if_pos h80]
      simp
  · show min (if pyTruthyStr c.email && pyTruthyStr c.phone then jd.quality_weight
        else jd.quality_weight * (0.9 : ℚ)) jd.quality_weight = _
    split_ifs with h
    · exact min_self _
    · exact min_eq_left (by nlinarith)

/-- Concrete instance for `justification_quality_bullet_iff`: an empty
candidate with OCR score 85 and no contact details against a
requirement-free job with quality weight 5. -/
def candidateW10 : Candidate :=
  ⟨[], [], none, [], [], none, none, some 85⟩

def jdW10 : JobDescription :=
  ⟨[], [], [], [], 40, 20, 15, 15, 5, 5⟩

theorem justification_quality_bullet_iff_witness :
    candidateW10.ocr_quality_score = some 85 ∧ (0 : ℚ) ≤ jdW10.quality_weight ∧
    (∃ bs, generate_justification (calculate_skill_score candidateW10 jdW10)
        (calculate_role_score candidateW10 jdW10)
        (calculate_tool_score candidateW10 jdW10)
        (calculate_experience_score candidateW10 jdW10)
        (calculate_portfolio_score candidateW10 jdW10)
        (calculate_quality_score candidateW10 jdW10) = Except.ok bs ∧
      ((qualityBullet ∈ bs) ↔ 80 ≤ (85 : ℚ)) ∧
      (calculate_quality_score candidateW10 jdW10).weighted =
        (if pyTruthyStr candidateW10.email && pyTruthyStr candidateW10.phone then
          jdW10.quality_weight
         else jdW10.quality_weight * (0.9 : ℚ))) :=
  ⟨rfl, by norm_num [jdW10],
    justification_quality_bullet_iff candidateW10 jdW10 85 rfl (by norm_num [jdW10])⟩

/-! ## Claim C4 — JobDescriptionCreate / JobDescriptionUpdate
(app/schemas/job_description.py)

Pydantic field semantics: fields are validated in declaration order;
`Field(ge=…, le=…)` constraints and custom `@validator`s apply to
explicitly provided values, and a validator declared without
`always=True` is NOT run when its field is omitted and takes its
default (both under pydantic v1 and under the v2 compatibility shim the
code imports).  `validate_total_weights` is attached to
`quality_weight` only, so the weight-sum check runs only when
`quality_weight` is explicitly provided.  `JobDescriptionUpdate`
carries no weight fields at all, so an update can never change weights. -/

structure JobDescriptionCreate where
  title : String
  description : String
  skill_weight : Option ℤ
  role_weight : Option ℤ
  tool_weight : Option ℤ
  experience_weight : Option ℤ
  portfolio_weight : Option ℤ
  quality_weight : Option ℤ
  minimum_score_threshold : Option ℤ

structure ValidatedJobDescription where
  title : String
  description : String
  skill_weight : ℤ
  role_weight : ℤ
  tool_weight : ℤ
  experience_weight : ℤ
  portfolio_weight : ℤ
  quality_weight : ℤ
  minimum_score_threshold : ℤ

/-- `Field(…, ge=0, le=100)` together with `validate_weights`, applied
to a provided value; an omitted field takes its default unvalidated. -/
def weightFieldOk (v : Option ℤ) : Bool :=
  match v with
  | none => true
  | some x => (0 ≤ x && x ≤ 100 : Bool)

/-- Validation of a `JobDescriptionCreate` request. -/
def validate_job_description_create (r : JobDescriptionCreate) :
    Except String ValidatedJobDescription :=
  if r.title.length < 1 ∨ 255 < r.title.length then Except.error "title"
  else if r.description.length < 1 then Except.error "description"
  else if !weightFieldOk r.skill_weight then Except.error "skill_weight"
  else if !weightFieldOk r.role_weight then Except.error "role_weight"
  else if !weightFieldOk r.tool_weight then Except.error "tool_weight"
  else if !weightFieldOk r.experience_weight then Except.error "experience_weight"
  else if !weightFieldOk r.portfolio_weight then Except.error "portfolio_weight"
  else if !weightFieldOk r.quality_weight then Except.error "quality_weight"
  else if !weightFieldOk r.minimum_score_threshold then Except.error "minimum_score_threshold"
  else
    let skill := r.skill_weight.getD 40
    let role := r.role_weight.getD 20
    let tool := r.tool_weight.getD 15
    let experience := r.experience_weight.getD 15
    let portfolio := r.portfolio_weight.getD 10
    let quality := r.quality_weight.getD 5
    if r.quality_weight.isSome ∧
        skill + role + tool + experience + portfolio + quality ≠ 100 then
      Except.error "Total weights must sum to 100"
    else
      Except.ok ⟨r.title, r.description, skill, role, tool, experience, portfolio, quality,
        r.minimum_score_threshold.getD 50⟩

/-- A creation request that provides skill_weight=100 and omits
quality_weight, and one that provides no weights at all. -/
def badCreateReq : JobDescriptionCreate :=
  ⟨"Site Engineer", "Build things", some 100, none, none, none, none, none, none⟩

def defaultsCreateReq : JobDescriptionCreate :=
  ⟨"Site Engineer", "Build things", none, none, none, none, none, none, none⟩

/-- C4: the claim fails on the code.  Because `validate_total_weights`
is attached to `quality_weight` without `always=True`, a creation
request that omits `quality_weight` is never sum-checked: providing
skill_weight=100 yields an accepted job description whose weights sum
to 165, and even the all-defaults request is accepted with weights
40+20+15+15+10+5 = 105 ≠ 100.  Such job descriptions reach the scorer. -/
theorem jd_create_weight_sum_not_enforced :
    (∃ v, validate_job_description_create badCreateReq = Except.ok v ∧
      v.skill_weight + v.role_weight + v.tool_weight + v.experience_weight +
        v.portfolio_weight + v.quality_weight = 165) ∧
    (∃ v, validate_job_description_create defaultsCreateReq = Except.ok v ∧
      v.skill_weight + v.role_weight + v.tool_weight + v.experience_weight +
        v.portfolio_weight + v.quality_weight = 105) ∧
    (165 : ℤ) ≠ 100 ∧ (105 : ℤ) ≠ 100 := by
  refine ⟨⟨_, rfl, by decide⟩, ⟨_, rfl, by decide⟩, by decide, by decide⟩

/-! ## Claim C5 — run_matching_task (app/api/matching.py)

The database is modelled as the list of candidate rows and the list of
match-result rows visible to the task; a match row is identified by its
(candidate_id, jd_id) pair, the only columns the delete/insert logic
inspects.  The per-candidate try/except of the insert loop is modelled
by the success predicate `ok`: a failing candidate is logged and
skipped.  The task queries the completed candidates (scoped to the
batch when one is given), deletes the existing match results for the
job — restricted, when a batch is given, to the queried candidates —
and then inserts one new row per successfully matched candidate. -/

structure MatchRow where
  candidate_id : ℕ
  jd_id : ℕ
  deriving DecidableEq

structure CandidateRow where
  candidate_id : ℕ
  batch_id : Option ℕ
  extraction_status : String
  deriving DecidableEq

structure DbState where
  candidates : List CandidateRow
  match_results : List MatchRow
  deriving DecidableEq

/-- The candidate query of `run_matching_task`. -/
def matching_scope (batch_id : Option ℕ) (db : DbState) : List CandidateRow :=
  db.candidates.filter (fun c =>
    c.extraction_status == "completed" &&
      match batch_id with
      | none => true
      | some b => c.batch_id == some b)

/-- `run_matching_task jd_id batch_id ok db`. -/
def run_matching_task (jd_id : ℕ) (batch_id : Option ℕ) (ok : CandidateRow → Bool)
    (db : DbState) : DbState :=
  let candidates := matching_scope batch_id db
  let candidate_ids := candidates.map (fun c => c.candidate_id)
  let kept := db.match_results.filter (fun m =>
    !(m.jd_id == jd_id &&
      match batch_id with
      | none => true
      | some _ => candidate_ids.contains m.candidate_id))
  let inserted := (candidates.filter ok).map (fun c =>
    { candidate_id := c.candidate_id, jd_id := jd_id })
  { candidates := db.candidates, match_results := kept ++ inserted }

def dbC5 : DbState :=
  { candidates := [{ candidate_id := 1, batch_id := some 7, extraction_status := "failed" }],
    match_results := [{ candidate_id := 1, jd_id := 5 }] }

/-- C5 counterexample: candidate 1 belongs to batch 7 and has a prior
match result for job 5, but its extraction status is "failed"; running
matching for job 5 scoped to batch 7 leaves that prior result in place,
because the delete is restricted to the batch's COMPLETED candidates —
so the run does not delete every prior result for the job restricted to
the batch's candidates, as the claim states. -/
theorem run_matching_task_stale_row_counterexample :
    dbC5.candidates = [{ candidate_id := 1, batch_id := some 7, extraction_status := "failed" }] ∧
    ({ candidate_id := 1, jd_id := 5 } : MatchRow) ∈ dbC5.match_results ∧
    ({ candidate_id := 1, jd_id := 5 } : MatchRow) ∈
      (run_matching_task 5 (some 7) (fun _ => true) dbC5).match_results := by
  refine ⟨rfl, by decide, by decide⟩

/-- The (candidate, job) key of a match row. -/
def matchKey (m : MatchRow) : ℕ × ℕ :=
  (m.candidate_id, m.jd_id)

lemma count_eq_one_of_nodup_mem {α : Type} [BEq α] [LawfulBEq α] {l : List α} {a : α}
    (d : l.Nodup) (h : a ∈ l) : l.count a = 1 := by
  induction l with
  | nil => cases h
  | cons b t ih =>
    rcases List.mem_cons.mp h with rfl | hmem
    · have hnotmem : a ∉ t := (List.nodup_cons.mp d).1
      rw [List.count_cons_self, List.count_eq_zero.mpr hnotmem]
    · have hbt : b ∉ t := (List.nodup_cons.mp d).1
      have hne : ¬(b == a) = true := by
        intro hab
        apply hbt
        rw [eq_of_beq hab]
        exact hmem
      rw [List.count_cons, if_neg hne, Nat.add_zero]
      exact ih (List.nodup_cons.mp d).2 hmem

lemma matching_scope_subset (batch_id : Option ℕ) (db : DbState) :
    ∀ c ∈ matching_scope batch_id db, c ∈ db.candidates := by
  intro c hc
  exact (List.mem_filter.mp hc).1

lemma scope_ids_nodup (batch_id : Option ℕ) (db : DbState)
    (hc : (db.candidates.map (fun c => c.candidate_id)).Nodup) (ok : CandidateRow → Bool) :
    (((matching_scope batch_id db).filter ok).map (fun c => c.candidate_id)).Nodup := by
  apply List.Nodup.sublist _ hc
  apply List.Sublist.map
  exact (List.filter_sublist (matching_scope batch_id db)).trans
    (List.filter_sublist db.candidates)

lemma kept_pred_eq_false (jd_id : ℕ) (batch_id : Option ℕ) (ids : List ℕ) (m : MatchRow)
    (hjd : m.jd_id = jd_id) (hmem : m.candidate_id ∈ ids) :
    (!(m.jd_id == jd_id &&
      match batch_id with
      | none => true
      | some _ => ids.contains m.candidate_id)) = false := by
  cases batch_id with
  | none => simp [hjd]
  | some b => simp [hjd, hmem]

/-- C5 amended: a matching run deletes every prior result for the job
whose candidate is among the run's queried candidates — the completed
candidates, restricted to the batch when one is given — and inserts
one fresh result per queried candidate that matches successfully.
Consequently, provided candidate ids are unique and the pre-state held
at most one result per (candidate, job) pair, the post-state does too,
and every queried candidate ends the run with exactly one result for
the job when its matching succeeded and none when it failed: matching
replaces rather than accumulates. -/
theorem run_matching_task_replaces (jd_id : ℕ) (batch_id : Option ℕ)
    (ok : CandidateRow → Bool) (db : DbState)
    (hc : (db.candidates.map (fun c => c.candidate_id)).Nodup)
    (hm : (db.match_results.map matchKey).Nodup) :
    ((run_matching_task jd_id batch_id ok db).match_results.map matchKey).Nodup ∧
    (∀ c ∈ matching_scope batch_id db,
      ((run_matching_task jd_id batch_id ok db).match_results.map matchKey).count
        (c.candidate_id, jd_id) = if ok c then 1 else 0) := by
  set scope := matching_scope batch_id db with hscope
  set keptRows := db.match_results.filter (fun m =>
    !(m.jd_id == jd_id &&
      match batch_id with
      | none => true
      | some _ => (scope.map (fun c => c.candidate_id)).contains m.candidate_id)) with hkept
  set insRows := (scope.filter ok).map (fun c =>
    ({ candidate_id := c.candidate_id, jd_id := jd_id } : MatchRow)) with hins
  have hpost : (run_matching_task jd_id batch_id ok db).match_results =
      keptRows ++ insRows := rfl
  have hkeptKeys : (keptRows.map matchKey).Nodup := by
    apply List.Nodup.sublist _ hm
    exact List.Sublist.map _ (List.filter_sublist _)
  have hinsEq : insRows.map matchKey =
      ((scope.filter ok).map (fun c => c.candidate_id)).map (fun x => (x, jd_id)) := by
    rw [hins, List.map_map, List.map_map]
    rfl
  have hinsKeys : (insRows.map matchKey).Nodup := by
    rw [hinsEq]
    apply List.Nodup.map
    · intro a b hab
      simpa using hab
    · exact scope_ids_nodup batch_id db hc ok
  have hInsKeyShape : ∀ k ∈ insRows.map matchKey,
      k.2 = jd_id ∧ k.1 ∈ scope.map (fun c => c.candidate_id) := by
    intro k hk
    rw [hinsEq] at hk
    obtain ⟨i, hi, rfl⟩ := List.mem_map.mp hk
    refine ⟨rfl, ?_⟩
    obtain ⟨c, hcmem, rfl⟩ := List.mem_map.mp hi
    exact List.mem_map_of_mem _ ((List.mem_filter.mp hcmem).1)
  have hKeptNotScoped : ∀ k ∈ keptRows.map matchKey,
      k.2 = jd_id → k.1 ∉ scope.map (fun c => c.candidate_id) := by
    intro k hk hjd hmemscope
    obtain ⟨m, hmK, rfl⟩ := List.mem_map.mp hk
    have hfalse := kept_pred_eq_false jd_id batch_id
      (scope.map (fun c => c.candidate_id)) m hjd hmemscope
    have htrue := (List.mem_filter.mp hmK).2
    rw [hfalse] at htrue
    exact Bool.false_ne_true htrue
  have hDisj : (keptRows.map matchKey).Disjoint (insRows.map matchKey) := by
    intro k hk1 hk2
    obtain ⟨hjd, hscopemem⟩ := hInsKeyShape k hk2
    exact hKeptNotScoped k hk1 hjd hscopemem
  constructor
  · rw [hpost, List.map_append]
    exact hkeptKeys.append hinsKeys hDisj
  · intro c hcScope
    rw [hpost, List.map_append, List.count_append]
    have hz : (keptRows.map matchKey).count (c.candidate_id, jd_id) = 0 := by
      rw [List.count_eq_zero]
      intro hmem
      exact hKeptNotScoped _ hmem rfl (List.mem_map_of_mem _ hcScope)
    rw [hz, Nat.zero_add, hinsEq]
    by_cases hok : ok c
    · rw [if_pos hok]
      have hcfil : c ∈ scope.filter ok := List.mem_filter.mpr ⟨hcScope, hok⟩
      have hidmem : (c.candidate_id, jd_id) ∈
          ((scope.filter ok).map (fun c => c.candidate_id)).map (fun x => (x, jd_id)) :=
        List.mem_map_of_mem _ (List.mem_map_of_mem _ hcfil)
      refine count_eq_one_of_nodup_mem ?_ hidmem
      apply List.Nodup.map
      · intro a b hab
        simpa using hab
      · exact scope_ids_nodup batch_id db hc ok
    · rw [if_neg hok, List.count_eq_zero]
      intro hmem
      obtain ⟨i, hi, hik⟩ := List.mem_map.mp hmem
      have hii : i = c.candidate_id := (Prod.mk.injEq _ _ _ _).mp hik |>.1
      obtain ⟨c', hc'fil, rfl⟩ := List.mem_map.mp hi
      have hc'scope : c' ∈ scope := (List.mem_filter.mp hc'fil).1
      have hc'ok : ok c' = true := (List.mem_filter.mp hc'fil).2
      have hcc : c' = c :=
        List.inj_on_of_nodup_map hc (matching_scope_subset batch_id db c' hc'scope)
          (matching_scope_subset batch_id db c hcScope) hii
      rw [hcc] at hc'ok
      exact hok hc'ok

/-- Concrete instance for `run_matching_task_replaces`: one completed
batch-3 candidate with a stale result for job 9, re-matched for job 9
scoped to batch 3. -/
def dbW5 : DbState :=
  { candidates := [{ candidate_id := 2, batch_id := some 3, extraction_status := "completed" }],
    match_results := [{ candidate_id := 2, jd_id := 9 }] }

theorem run_matching_task_replaces_witness :
    (dbW5.candidates.map (fun c => c.candidate_id)).Nodup ∧
    (dbW5.match_results.map matchKey).Nodup ∧
    (((run_matching_task 9 (some 3) (fun _ => true) dbW5).match_results.map matchKey).Nodup ∧
    (∀ c ∈ matching_scope (some 3) dbW5,
      ((run_matching_task 9 (some 3) (fun _ => true) dbW5).match_results.map matchKey).count
        (c.candidate_id, 9) = if (fun _ => true) c then 1 else 0)) :=
  ⟨by decide, by decide,
    run_matching_task_replaces 9 (some 3) (fun _ => true) dbW5 (by decide) (by decide)⟩

/-! ## Claim C7 — ProfileEvaluator.calculate_total_experience and
_parse_date (app/services/profile_evaluator.py)

Dates are modelled by (year, month); the day is always 1 or irrelevant.
`pyDatetime` models the `datetime(year, month, 1)` constructor, which
raises ValueError outside year 1..9999 or month 1..12.  The source
converts the final month total to years with `round(total_months / 12,
1)`; that floating-point step is outside the claim, which is about the
month arithmetic. -/

structure PyDate where
  year : ℕ
  month : ℕ
  deriving DecidableEq

def pyDatetime (year month : ℕ) : Except Unit PyDate :=
  if 1 ≤ year ∧ year ≤ 9999 ∧ 1 ≤ month ∧ month ≤ 12 then Except.ok ⟨year, month⟩
  else Except.error ()

/-- Python `str.strip()` (ASCII whitespace). -/
def pyStrip (s : String) : String :=
  String.mk (((s.data.dropWhile Char.isWhitespace).reverse.dropWhile Char.isWhitespace).reverse)

def digitsToNat (l : List Char) : ℕ :=
  l.foldl (fun acc c => acc * 10 + (c.toNat - 48)) 0

/-- The anchored pattern (\d{4})-(\d{1,2}): four digits, a dash, then
one or two digits. -/
def matchYYYYMM (l : List Char) : Option (ℕ × ℕ) :=
  let y := l.take 4
  let rest := l.drop 4
  if y.length = 4 && y.all Char.isDigit then
    match rest with
    | '-' :: m =>
      if (m.length = 1 || m.length = 2) && m.all Char.isDigit then
        some (digitsToNat y, digitsToNat m)
      else none
    | _ => none
  else none

/-- The month tokens accepted by the Month-YYYY alternation of
`_parse_date` (case-insensitive, so listed lowercased). -/
def monthTokens : List String :=
  ["january", "jan", "february", "feb", "march", "mar", "april", "apr", "may",
   "june", "jun", "july", "jul", "august", "aug", "september", "sept", "sep",
   "october", "oct", "november", "nov", "december", "dec"]

/-- The anchored pattern (MONTH)\s+(\d{4}) on a lowercased string. -/
def matchMonthYear (l : List Char) : Option (String × ℕ) :=
  let tok := l.takeWhile (fun c => !c.isWhitespace)
  let rest := l.dropWhile (fun c => !c.isWhitespace)
  let ws := rest.takeWhile Char.isWhitespace
  let yr := rest.dropWhile Char.isWhitespace
  if monthTokens.contains (String.mk tok) && 1 ≤ ws.length &&
      yr.length = 4 && yr.all Char.isDigit then
    some (String.mk tok, digitsToNat yr)
  else none

/-- The `month_map` lookup over the first three characters of the
matched month name, with `.get(…, 1)` defaulting to 1. -/
def month_map3 (tok : String) : ℕ :=
  (([("jan", 1), ("feb", 2), ("mar", 3), ("apr", 4), ("may", 5), ("jun", 6),
     ("jul", 7), ("aug", 8), ("sep", 9), ("oct", 10), ("nov", 11), ("dec", 12)] :
    List (String × ℕ)).find? (fun p => p.1 == String.mk (tok.data.take 3))).elim 1 Prod.snd

/-- The anchored pattern (\d{4}). -/
def matchYYYY (l : List Char) : Option ℕ :=
  if l.length = 4 && l.all Char.isDigit then some (digitsToNat l) else none

/-- `ProfileEvaluator._parse_date`, with `datetime.now()` passed in as
`now`.  Returns `none` for unparsable input and errors when a matched
numeric date reaches `datetime` with an out-of-range year or month. -/
def parse_date (now : PyDate) (date_str : Option String) : Except Unit (Option PyDate) :=
  match date_str with
  | none => Except.ok none
  | some s0 =>
    if s0.isEmpty then Except.ok none
    else
      let s := pyStrip s0
      if pyLower s = "present" ∨ pyLower s = "current" ∨ pyLower s = "now" then
        Except.ok (some now)
      else
        match matchYYYYMM s.data with
        | some (y, m) => (pyDatetime y m).map some
        | none =>
          match matchMonthYear (pyLower s).data with
          | some (tok, y) => (pyDatetime y (month_map3 tok)).map some
          | none =>
            match matchYYYY s.data with
            | some y => (pyDatetime y 1).map some
            | none => Except.ok none

instance {ε α : Type} [DecidableEq ε] [DecidableEq α] : DecidableEq (Except ε α) :=
  fun a b =>
    match a, b with
    | Except.ok x, Except.ok y => decidable_of_iff (x = y) (by simp)
    | Except.error x, Except.error y => decidable_of_iff (x = y) (by simp)
    | Except.ok _, Except.error _ => isFalse (by simp)
    | Except.error _, Except.ok _ => isFalse (by simp)

structure WorkEntry where
  start_date : Option String
  end_date : Option String
  deriving DecidableEq

/-- One iteration of the `calculate_total_experience` loop: months
contributed by one work entry. -/
def entry_months (now : PyDate) (e : WorkEntry) : Except Unit ℤ := do
  let start ← parse_date now e.start_date
  let endd ← parse_date now e.end_date
  match start with
  | none => return 0
  | some s =>
    let en := endd.getD now
    let diff : ℤ := ((en.year : ℤ) - (s.year : ℤ)) * 12 + ((en.month : ℤ) - (s.month : ℤ))
    return if 0 < diff then diff else 0

/-- The month total accumulated by
`ProfileEvaluator.calculate_total_experience` (the source then returns
`round(total_months / 12, 1)`). -/
def calculate_total_experience_months (now : PyDate) (experience_list : List WorkEntry) :
    Except Unit ℤ :=
  experience_list.foldlM (fun acc e => do
    let m ← entry_months now e
    return acc + m) 0

/-- The parsed date of a field when parsing does not raise. -/
def parsedDate (now : PyDate) (o : Option String) : Option PyDate :=
  ((parse_date now o).toOption).join

/-- Follows the claim's words: an entry with no parsable start date
contributes zero months; otherwise, with a missing or unparsable end
resolving to the current date, it contributes
(end.year − start.year) × 12 + (end.month − start.month), with a
negative difference clamped to zero. -/
def spec_contribution (now : PyDate) (s e : Option PyDate) : ℤ :=
  match s with
  | none => 0
  | some sd =>
    let ed := e.getD now
    max (((ed.year : ℤ) - (sd.year : ℤ)) * 12 + ((ed.month : ℤ) - (sd.month : ℤ))) 0

/-- C7 counterexample: the start date "2022-13" matches the numeric
YYYY-MM pattern, so the code calls datetime(2022, 13, 1), which raises
ValueError — the total-experience computation errors out instead of
treating the entry as unparsable (contributing zero), as the claim
would have it for every list of work entries. -/
theorem total_experience_month13_raises :
    calculate_total_experience_months ⟨2026, 10⟩
      [⟨some "2022-13", some "2023-01"⟩] = Except.error () := by rfl

lemma except_isOk_exists {α : Type} {x : Except Unit α} (h : x.isOk = true) :
    ∃ v, x = Except.ok v := by
  cases x with
  | ok v => exact ⟨v, rfl⟩
  | error e => simp [Except.isOk, Except.toBool] at h

lemma entry_months_eq (now : PyDate) (e : WorkEntry)
    (h1 : (parse_date now e.start_date).isOk = true)
    (h2 : (parse_date now e.end_date).isOk = true) :
    entry_months now e =
      Except.ok (spec_contribution now (parsedDate now e.start_date)
        (parsedDate now e.end_date)) := by
  obtain ⟨s, hs⟩ := except_isOk_exists h1
  obtain ⟨t, ht⟩ := except_isOk_exists h2
  have key : ∀ D : ℤ, (if 0 < D then D else 0) = max D 0 := by
    intro D
    split_ifs with h
    · exact (max_eq_left h.le).symm
    · exact (max_eq_right (not_lt.mp h)).symm
  cases s with
  | none =>
    simp only [entry_months, parsedDate, hs, ht]
    rfl
  | some sd =>
    simp only [entry_months, parsedDate, hs, ht]
    exact congrArg Except.ok (key ((((t.getD now).year : ℤ) - (sd.year : ℤ)) * 12 +
      (((t.getD now).month : ℤ) - (sd.month : ℤ))))

lemma total_months_go (now : PyDate) : ∀ (entries : List WorkEntry),
    (∀ e ∈ entries, (parse_date now e.start_date).isOk = true ∧
      (parse_date now e.end_date).isOk = true) →
    ∀ acc : ℤ,
      (entries.foldlM (fun acc e => do
        let m ← entry_months now e
        return acc + m) acc) =
      Except.ok (acc + (entries.map (fun e =>
        spec_contribution now (parsedDate now e.start_date)
          (parsedDate now e.end_date))).sum)
  | [], _, acc => by
    simp [List.foldlM]
    rfl
  | e :: t, hv, acc => by
    have he := hv e (List.mem_cons_self e t)
    have hrec := total_months_go now t (fun x hx => hv x (List.mem_cons_of_mem e hx))
      (acc + spec_contribution now (parsedDate now e.start_date) (parsedDate now e.end_date))
    have hmEq := entry_months_eq now e he.1 he.2
    simp only [List.foldlM, hmEq]
    exact hrec.trans (congrArg Except.ok (by
      simp only [List.map_cons, List.sum_cons]
      omega))

/-- C7 amended: provided no date string of the list makes the
datetime constructor raise (every start and end field parses without
error), the month total is exactly the sum over entries of
(end.year − start.year) × 12 + (end.month − start.month), clamped to
zero when negative, with a missing or unparsable end date (and in
particular the sentinels present/current/now) resolving to the current
date and an entry with no parsable start date contributing zero; the
entry "2020-01" to "2022-03" contributes exactly 26 months whatever
the current date. -/
theorem total_experience_months_characterization (now : PyDate) (entries : List WorkEntry)
    (hvalid : ∀ e ∈ entries, (parse_date now e.start_date).isOk = true ∧
      (parse_date now e.end_date).isOk = true) :
    calculate_total_experience_months now entries =
      Except.ok ((entries.map (fun e =>
        spec_contribution now (parsedDate now e.start_date)
          (parsedDate now e.end_date))).sum) ∧
    (∀ now2 : PyDate,
      calculate_total_experience_months now2 [⟨some "2020-01", some "2022-03"⟩] =
        Except.ok 26) := by
  constructor
  · have := total_months_go now entries hvalid 0
    simpa [calculate_total_experience_months] using this
  · intro now2
    have hv26 : ∀ e ∈ ([⟨some "2020-01", some "2022-03"⟩] : List WorkEntry),
        (parse_date now2 e.start_date).isOk = true ∧
          (parse_date now2 e.end_date).isOk = true := by
      intro e he
      rw [List.mem_singleton] at he
      subst he
      exact ⟨rfl, rfl⟩
    have h := total_months_go now2 [⟨some "2020-01", some "2022-03"⟩] hv26 0
    have hpd1 : parsedDate now2 (some "2020-01") = some ⟨2020, 1⟩ := rfl
    have hpd2 : parsedDate now2 (some "2022-03") = some ⟨2022, 3⟩ := rfl
    refine Eq.trans h (congrArg Except.ok ?_)
    simp only [List.map_cons, List.map_nil, List.sum_cons, List.sum_nil, hpd1, hpd2,
      spec_contribution, Option.getD_some]
    omega

/-- Concrete instance for `total_experience_months_characterization`:
one 26-month entry and one entry with an unparsable start date. -/
def entriesW7 : List WorkEntry :=
  [⟨some "2020-01", some "2022-03"⟩, ⟨some "unknown", none⟩]

theorem total_experience_months_characterization_witness :
    (∀ e ∈ entriesW7, (parse_date ⟨2026, 10⟩ e.start_date).isOk = true ∧
      (parse_date ⟨2026, 10⟩ e.end_date).isOk = true) ∧
    (calculate_total_experience_months ⟨2026, 10⟩ entriesW7 =
      Except.ok ((entriesW7.map (fun e =>
        spec_contribution ⟨2026, 10⟩ (parsedDate ⟨2026, 10⟩ e.start_date)
          (parsedDate ⟨2026, 10⟩ e.end_date))).sum) ∧
    (∀ now2 : PyDate,
      calculate_total_experience_months now2 [⟨some "2020-01", some "2022-03"⟩] =
        Except.ok 26)) :=
  ⟨by decide, total_experience_months_characterization ⟨2026, 10⟩ entriesW7 (by decide)⟩

/-! ## Claim C9 — software experience
(app/services/profile_evaluator.py `calculate_software_experience` and
app/services/enhanced_extractor.py `_extract_software_experience`) -/

/-- `KNOWN_SOFTWARE` from profile_evaluator.py. -/
def KNOWN_SOFTWARE : List String :=
  ["revit", "autocad", "navisworks", "tekla", "etabs", "sap2000", "staad",
   "primavera", "ms project", "procore", "bluebeam", "sketchup",
   "civil 3d", "infraworks", "robot structural", "safe", "dynamo",
   "bim 360", "acc", "solibri", "bentley", "microstation",
   "archicad", "rhino", "grasshopper", "enscape", "lumion",
   "matlab", "python", "excel", "powerbi", "power bi"]

/-- `get_tools_dict` from app/services/dictionaries.py. -/
def get_tools_dict : List String :=
  ["revit", "autocad", "navisworks", "bim 360", "autodesk construction cloud",
   "civil 3d", "sketchup", "archicad", "rhinoceros", "grasshopper", "dynamo",
   "lumion", "enscape", "v-ray", "3ds max", "blender",
   "procore", "plangrid", "primavera", "ms project",
   "microsoft office", "adobe creative suite", "photoshop", "illustrator", "indesign"]

structure EvaluatorSoftwareInfo where
  years : String
  proficiency : String
  deriving DecidableEq

/-- `ProfileEvaluator.calculate_software_experience`: for each known
software whose lowercased name occurs as a substring of some skill
string, record years and proficiency as the literal string
"Not Specified" (its docstring: years/proficiency only if explicitly
stated — otherwise Not Specified; the code never fills them in).  The
`experience_list` parameter is accepted and ignored, as in the source. -/
def calculate_software_experience (skills : List String)
    (experience_list : List WorkEntry) : List (String × EvaluatorSoftwareInfo) :=
  KNOWN_SOFTWARE.filterMap (fun sw =>
    if skills.any (fun s => pyStrIn (pyLower sw) s) then
      some (sw, ⟨"Not Specified", "Not Specified"⟩)
    else none)

/-- The regex-library services used by
`EnhancedDataExtractor._extract_software_experience`, abstracted:
`wordHit tool text` is the whole-word search for the escaped tool name,
`context tool text` is the joined findall of the 100-character windows
around its mentions, and `yearsNear tool context` is the explicit
"N years … tool" pattern applied to that context. -/
structure SweOracle where
  wordHit : String → String → Bool
  context : String → String → String
  yearsNear : String → String → Option ℕ

/-- `PROFICIENCY_KEYWORDS` from enhanced_extractor.py (insertion
order). -/
def PROFICIENCY_KEYWORDS : List (String × List String) :=
  [("Expert", ["expert", "advanced", "highly proficient", "mastery", "specialist"]),
   ("Intermediate", ["intermediate", "proficient", "working knowledge", "experienced"]),
   ("Basic", ["basic", "beginner", "familiar", "knowledge of"])]

/-- The proficiency loop: first level whose keyword list hits the
context wins; `Intermediate` is the default. -/
def proficiency_scan (context : String) : String :=
  match PROFICIENCY_KEYWORDS.find? (fun p => p.2.any (fun kw => pyStrIn kw context)) with
  | some p => p.1
  | none => "Intermediate"

/-- The years estimate used when no explicit years pattern matches. -/
def estimate_years (proficiency : String) : ℚ :=
  if proficiency = "Expert" then 5
  else if proficiency = "Intermediate" then 3
  else 1

/-- Python `str.title()` for ASCII text. -/
def titleAux : Bool → List Char → List Char
  | _, [] => []
  | prevAlpha, c :: rest =>
    (if prevAlpha then c.toLower else c.toUpper) :: titleAux c.isAlpha rest

def pyTitle (s : String) : String :=
  String.mk (titleAux false s.data)

structure SoftwareExperience where
  software_name : String
  proficiency_level : String
  years_of_experience : ℚ
  is_relevant : Bool
  deriving DecidableEq

/-- `EnhancedDataExtractor._extract_software_experience`. -/
def extract_software_experience (o : SweOracle) (text : String) : List SoftwareExperience :=
  let text_lower := pyLower text
  let found_tools := (get_tools_dict.map pyLower).filter (fun t => o.wordHit t text_lower)
  found_tools.map (fun tool =>
    let context := o.context tool text_lower
    let proficiency := proficiency_scan context
    let years : ℚ :=
      match o.yearsNear tool context with
      | some n => (n : ℚ)
      | none => estimate_years proficiency
    ⟨pyTitle tool, proficiency, years, true⟩)

/-- C9 counterexample: for a profile whose skills contain "revit", the
profile evaluator's software-experience map assigns proficiency
"Not Specified" — not an inferred tier defaulting to Intermediate —
and leaves years "Not Specified" as well, contradicting the claim that
neither field is ever left unspecified. -/
theorem evaluator_software_not_specified :
    (calculate_software_experience ["revit"] []).lookup "revit" =
      some ⟨"Not Specified", "Not Specified"⟩ ∧
    ("Not Specified" : String) ≠ "Intermediate" ∧
    ("Not Specified" : String) ≠ "Expert" ∧ ("Not Specified" : String) ≠ "Basic" := by
  refine ⟨by decide, by decide, by decide, by decide⟩

lemma proficiency_scan_values (context : String) :
    proficiency_scan context = "Expert" ∨ proficiency_scan context = "Intermediate" ∨
      proficiency_scan context = "Basic" := by
  unfold proficiency_scan
  cases h : PROFICIENCY_KEYWORDS.find? (fun p => p.2.any (fun kw => pyStrIn kw context)) with
  | none => right; left; rfl
  | some p =>
    have hp := List.mem_of_find?_eq_some h
    simp only [PROFICIENCY_KEYWORDS, List.mem_cons, List.not_mem_nil, or_false] at hp
    rcases hp with rfl | rfl | rfl <;> simp


lemma lookup_some_mem {l : List (String × EvaluatorSoftwareInfo)} {k : String}
    {v : EvaluatorSoftwareInfo} (h : l.lookup k = some v) : ∃ k2, (k2, v) ∈ l := by
  induction l with
  | nil => simp [List.lookup] at h
  | cons p t ih =>
    obtain ⟨a, b⟩ := p
    rw [List.lookup] at h
    by_cases hk : (k == a) = true
    · rw [hk] at h
      have hb : b = v := by simpa using h
      exact ⟨a, by simp [hb]⟩
    · have hk2 : (k == a) = false := by simpa using hk
      rw [hk2] at h
      obtain ⟨k2, hmem⟩ := ih h
      exact ⟨k2, List.mem_cons_of_mem _ hmem⟩

/-- C9 amended: the profile evaluator's map always records both years
and proficiency as the string "Not Specified"; the described
behaviour — a proficiency tier inferred from nearby context keywords
defaulting to Intermediate, and years read from an explicit pattern or
else estimated as Expert→5, Intermediate→3, Basic→1, never null —
belongs to the enhanced extractor's software-experience list. -/
theorem software_experience_characterization :
    (∀ (skills : List String) (experience_list : List WorkEntry) (sw : String)
        (info : EvaluatorSoftwareInfo),
      (calculate_software_experience skills experience_list).lookup sw = some info →
      info = ⟨"Not Specified", "Not Specified"⟩) ∧
    (∀ (o : SweOracle) (text : String) (e : SoftwareExperience),
      e ∈ extract_software_experience o text →
      ∃ tool, tool ∈ (get_tools_dict.map pyLower).filter
          (fun t => o.wordHit t (pyLower text)) ∧
        e.software_name = pyTitle tool ∧
        e.proficiency_level = proficiency_scan (o.context tool (pyLower text)) ∧
        (e.proficiency_level = "Expert" ∨ e.proficiency_level = "Intermediate" ∨
          e.proficiency_level = "Basic") ∧
        e.years_of_experience =
          (match o.yearsNear tool (o.context tool (pyLower text)) with
           | some n => (n : ℚ)
           | none => estimate_years e.proficiency_level)) ∧
    estimate_years "Expert" = 5 ∧ estimate_years "Intermediate" = 3 ∧
      estimate_years "Basic" = 1 := by
  refine ⟨?_, ?_, by decide, by decide, by decide⟩
  · intro skills experience_list sw info h
    obtain ⟨k2, hmem⟩ := lookup_some_mem h
    obtain ⟨sw2, hsw2, heq⟩ := List.mem_filterMap.mp hmem
    by_cases hc : skills.any (fun s => pyStrIn (pyLower sw2) s)
    · rw [if_pos hc] at heq
      have hpair := Option.some.inj heq
      exact ((Prod.mk.injEq _ _ _ _).mp hpair).2.symm
    · rw [if_neg hc] at heq
      cases heq
  · intro o text e he
    simp only [extract_software_experience, List.mem_map] at he
    obtain ⟨tool, htool, rfl⟩ := he
    exact ⟨tool, htool, rfl, rfl, proficiency_scan_values _, rfl⟩

/-- Concrete instance for `software_experience_characterization`: the
evaluator map of a revit-skilled profile, and the enhanced extractor
run with an oracle that finds "revit" in the text with an "expert"
context and no explicit years. -/
def oracleW9 : SweOracle :=
  ⟨fun t _ => t == "revit", fun _ _ => "expert user", fun _ _ => none⟩

theorem software_experience_characterization_witness :
    ((calculate_software_experience ["revit"] []).lookup "revit" =
        some ⟨"Not Specified", "Not Specified"⟩ ∧
      (⟨"Not Specified", "Not Specified"⟩ : EvaluatorSoftwareInfo) =
        ⟨"Not Specified", "Not Specified"⟩) ∧
    ((⟨"Revit", "Expert", 5, true⟩ : SoftwareExperience) ∈
        extract_software_experience oracleW9 "Revit" ∧
      ∃ tool, tool ∈ (get_tools_dict.map pyLower).filter
          (fun t => oracleW9.wordHit t (pyLower "Revit")) ∧
        (⟨"Revit", "Expert", 5, true⟩ : SoftwareExperience).software_name = pyTitle tool ∧
        (⟨"Revit", "Expert", 5, true⟩ : SoftwareExperience).proficiency_level =
          proficiency_scan (oracleW9.context tool (pyLower "Revit")) ∧
        ((⟨"Revit", "Expert", 5, true⟩ : SoftwareExperience).proficiency_level = "Expert" ∨
          (⟨"Revit", "Expert", 5, true⟩ : SoftwareExperience).proficiency_level =
            "Intermediate" ∨
          (⟨"Revit", "Expert", 5, true⟩ : SoftwareExperience).proficiency_level = "Basic") ∧
        (⟨"Revit", "Expert", 5, true⟩ : SoftwareExperience).years_of_experience =
          (match oracleW9.yearsNear tool (oracleW9.context tool (pyLower "Revit")) with
           | some n => (n : ℚ)
           | none => estimate_years
              (⟨"Revit", "Expert", 5, true⟩ : SoftwareExperience).proficiency_level)) :=
  ⟨⟨by decide, software_experience_characterization.1 ["revit"] [] "revit"
      ⟨"Not Specified", "Not Specified"⟩ (by decide)⟩,
    by decide, software_experience_characterization.2.1 oracleW9 "Revit"
      ⟨"Revit", "Expert", 5, true⟩ (by decide)⟩

/-! ## Claim C6 — experience segmentation and block parsing
(app/services/ats_parser.py `_extract_experience` and
`_parse_experience_block`)

The search for DATE_PATTERN is abstracted as a parameter
`d : String → Option (String × String)` returning groups 1 and 3 (start
and end) of the first match, or `none` when the line has no date range;
the claims proved here hold for every behaviour of that search.  All
other line tests (`"|" in line`, keyword membership, word counts) are
modelled concretely. -/

def ROLE_KEYWORDS : List String :=
  ["engineer", "manager", "modeler", "technician", "designer",
   "supervisor", "coordinator", "specialist", "architect", "draftsman"]

def COMPANY_KEYWORDS : List String :=
  ["llc", "ltd", "private", "pvt", "consult", "consultancy", "contracting",
   "engineering", "infrastructure", "services", "global", "solutions"]

/-- Python `line.split()` (whitespace split, empties dropped). -/
def wordsAux : List Char → List Char → List (List Char)
  | [], acc => if acc.isEmpty then [] else [acc.reverse]
  | c :: rest, acc =>
    if c.isWhitespace then
      (if acc.isEmpty then wordsAux rest [] else acc.reverse :: wordsAux rest [])
    else wordsAux rest (c :: acc)

def pySplitWs (s : String) : List String :=
  (wordsAux s.data []).map String.mk

/-- Python `s.split("|", 1)` for a string containing a pipe: the part
before the first pipe and everything after it. -/
def splitAtPipe : List Char → List Char × List Char
  | [] => ([], [])
  | x :: rest =>
    if x = '|' then ([], rest)
    else
      let p := splitAtPipe rest
      (x :: p.1, p.2)

/-- The `mixed_format` test of `_extract_experience`. -/
def mixed_format (line : String) : Bool :=
  (pyStrIn "|" line || pyStrIn " - " line || pyStrIn " — " line) &&
    ROLE_KEYWORDS.any (fun r => pyStrIn r (pyLower line))

/-- A line that starts a new experience block: a DATE_PATTERN hit or a
mixed-format role line. -/
def exp_block_starter (d : String → Option (String × String)) (line : String) : Bool :=
  (d line).isSome || mixed_format line

/-- The block accumulation loop of `_extract_experience`. -/
def mkBlocksAux (d : String → Option (String × String)) (current : List String) :
    List String → List (List String)
  | [] => if current.isEmpty then [] else [current]
  | l :: rest =>
    if exp_block_starter d l then
      (if current.isEmpty then mkBlocksAux d [l] rest
       else current :: mkBlocksAux d [l] rest)
    else mkBlocksAux d (current ++ [l]) rest

def extract_experience_blocks (d : String → Option (String × String))
    (lines : List String) : List (List String) :=
  mkBlocksAux d [] lines

structure ExpJob where
  job_title : Option String
  company : Option String
  start_date : Option String
  end_date : Option String
  description : List String
  deriving DecidableEq

/-- The title test of Case 2: a role keyword in the lowercased line and
at most 7 whitespace-separated words. -/
def title_line_test (line : String) : Bool :=
  ROLE_KEYWORDS.any (fun r => pyStrIn r (pyLower line)) && (pySplitWs line).length ≤ 7

/-- The company test of Case 3. -/
def company_line_test (line : String) : Bool :=
  COMPANY_KEYWORDS.any (fun k => pyStrIn k (pyLower line))

/-- `ATSParser._parse_experience_block`.  The date loop of the source
iterates over the block's first three lines WITHOUT break, assigning on
every match, so it is modelled as a fold whose accumulator is
overwritten by each matching line. -/
def parse_experience_block (d : String → Option (String × String))
    (block : List String) : ExpJob :=
  let header := block.headD ""
  let pipe := pyStrIn "|" header
  let t0 : Option String :=
    if pipe then some (pyStrip (String.mk (splitAtPipe header.data).1)) else none
  let c0 : Option String :=
    if pipe then some (pyStrip (String.mk (splitAtPipe header.data).2)) else none
  let t1 := if pyTruthyStr t0 then t0
    else ((block.take 3).find? title_line_test).map pyStrip
  let c1 := if pyTruthyStr c0 then c0
    else ((block.take 3).find? company_line_test).map pyStrip
  let dates := (block.take 3).foldl (fun acc line =>
    match d line with
    | some g => (some g.1, some g.2)
    | none => acc) ((none : Option String), (none : Option String))
  let description := block.filter (fun line =>
    !(d line).isSome &&
      !((match t1 with | some v => v == line | none => false) ||
        (match c1 with | some v => v == line | none => false)) &&
      6 ≤ (pySplitWs line).length)
  ⟨t1, c1, dates.1, dates.2, description⟩

/-- `ATSParser._extract_experience`: parse each block, keeping those
with a truthy start date. -/
def extract_experience (d : String → Option (String × String))
    (lines : List String) : List ExpJob :=
  ((extract_experience_blocks d lines).map (parse_experience_block d)).filter
    (fun j => pyTruthyStr j.start_date)

lemma mkBlocksAux_tail_no_starter (d : String → Option (String × String)) :
    ∀ (ls : List String) (cur : List String),
      (∀ l ∈ cur.tail, exp_block_starter d l = false) →
      ∀ b ∈ mkBlocksAux d cur ls, ∀ l ∈ b.tail, exp_block_starter d l = false
  | [], cur, hcur, b, hb, l, hl => by
    simp only [mkBlocksAux] at hb
    split_ifs at hb with h
    · cases hb
    · rw [List.mem_singleton] at hb
      subst hb
      exact hcur l hl
  | x :: rest, cur, hcur, b, hb, l, hl => by
    simp only [mkBlocksAux] at hb
    split_ifs at hb with h1 h2
    · exact mkBlocksAux_tail_no_starter d rest [x] (by simp) b hb l hl
    · rcases List.mem_cons.mp hb with rfl | hb2
      · exact hcur l hl
      · exact mkBlocksAux_tail_no_starter d rest [x] (by simp) b hb2 l hl
    · refine mkBlocksAux_tail_no_starter d rest (cur ++ [x]) ?_ b hb l hl
      intro y hy
      cases cur with
      | nil => simp at hy
      | cons c0 ct =>
        simp only [List.cons_append, List.tail_cons] at hy
        rcases List.mem_append.mp hy with hy1 | hy2
        · exact hcur y hy1
        · rw [List.mem_singleton] at hy2
          subst hy2
          simpa using h1

lemma blocks_tail_no_starter (d : String → Option (String × String)) (lines : List String) :
    ∀ b ∈ extract_experience_blocks d lines, ∀ l ∈ b.tail,
      exp_block_starter d l = false := by
  intro b hb
  exact mkBlocksAux_tail_no_starter d lines [] (by simp) b hb

lemma foldl_dates_no_match (d : String → Option (String × String)) :
    ∀ (ls : List String), (∀ l ∈ ls, d l = none) →
      ∀ acc : Option String × Option String,
        ls.foldl (fun acc line =>
          match d line with
          | some g => (some g.1, some g.2)
          | none => acc) acc = acc
  | [], _, acc => rfl
  | x :: rest, h, acc => by
    have hx : d x = none := h x (List.mem_cons_self x rest)
    simp only [List.foldl_cons, hx]
    exact foldl_dates_no_match d rest (fun l hl => h l (List.mem_cons_of_mem x hl)) acc

/-- C6: within an experience block as produced by the segmentation of
`_extract_experience`, slot filling is first-match-wins and no slot is
ever overwritten: only the block's first line can match the date
pattern (any later matching line would have started a new block), so
the start/end dates come from the head line alone even though the
source's date loop has no break; the title is the pipe-split header
when that yields a non-empty string and otherwise the FIRST of the
block's first three lines passing the role-keyword test; the company
is the pipe-split remainder when non-empty and otherwise the FIRST of
the first three lines passing the company-keyword test. -/
theorem experience_block_first_match_wins (d : String → Option (String × String))
    (lines : List String) (h : String) (t : List String)
    (hmem : (h :: t) ∈ extract_experience_blocks d lines) :
    (parse_experience_block d (h :: t)).start_date = (d h).map Prod.fst ∧
    (parse_experience_block d (h :: t)).end_date = (d h).map Prod.snd ∧
    (parse_experience_block d (h :: t)).job_title =
      (if pyTruthyStr (if pyStrIn "|" h then
          some (pyStrip (String.mk (splitAtPipe h.data).1)) else none) then
        (if pyStrIn "|" h then some (pyStrip (String.mk (splitAtPipe h.data).1)) else none)
       else (((h :: t).take 3).find? title_line_test).map pyStrip) ∧
    (parse_experience_block d (h :: t)).company =
      (if pyTruthyStr (if pyStrIn "|" h then
          some (pyStrip (String.mk (splitAtPipe h.data).2)) else none) then
        (if pyStrIn "|" h then some (pyStrip (String.mk (splitAtPipe h.data).2)) else none)
       else (((h :: t).take 3).find? company_line_test).map pyStrip) := by
  have htail := blocks_tail_no_starter d lines (h :: t) hmem
  have hdnone : ∀ l ∈ t.take 2, d l = none := by
    intro l hl
    have hmem2 : l ∈ t := List.mem_of_mem_take hl
    have := htail l (by simpa using hmem2)
    simp only [exp_block_starter, Bool.or_eq_false_iff] at this
    exact Option.not_isSome_iff_eq_none.mp (by simp [this.1])
  have hdates : ((h :: t).take 3).foldl (fun acc line =>
      match d line with
      | some g => (some g.1, some g.2)
      | none => acc) ((none : Option String), (none : Option String)) =
      ((d h).map Prod.fst, (d h).map Prod.snd) := by
    rw [show List.take 3 (h :: t) = h :: t.take 2 from rfl, List.foldl_cons]
    rw [foldl_dates_no_match d (t.take 2) hdnone]
    cases hd : d h <;> simp
  refine ⟨?_, ?_, rfl, rfl⟩
  · have h1 : (parse_experience_block d (h :: t)).start_date =
        (((h :: t).take 3).foldl (fun acc line =>
          match d line with
          | some g => (some g.1, some g.2)
          | none => acc) ((none : Option String), (none : Option String))).1 := rfl
    rw [h1, hdates]
  · have h2 : (parse_experience_block d (h :: t)).end_date =
        (((h :: t).take 3).foldl (fun acc line =>
          match d line with
          | some g => (some g.1, some g.2)
          | none => acc) ((none : Option String), (none : Option String))).2 := rfl
    rw [h2, hdates]

/-- Concrete instance for `experience_block_first_match_wins`: a date
search recognizing one date-range line, and a three-line résumé whose
date line starts the block. -/
def dW6 : String → Option (String × String) :=
  fun s => if s = "Jan 2020 - Dec 2021" then some ("Jan 2020", "Dec 2021") else none

def linesW6 : List String :=
  ["Jan 2020 - Dec 2021", "Site Engineer",
   "worked on several large infrastructure projects in the region"]

theorem experience_block_first_match_wins_witness :
    (["Jan 2020 - Dec 2021", "Site Engineer",
        "worked on several large infrastructure projects in the region"] ∈
      extract_experience_blocks dW6 linesW6) ∧
    ((parse_experience_block dW6 ["Jan 2020 - Dec 2021", "Site Engineer",
        "worked on several large infrastructure projects in the region"]).start_date =
      (dW6 "Jan 2020 - Dec 2021").map Prod.fst ∧
     (parse_experience_block dW6 ["Jan 2020 - Dec 2021", "Site Engineer",
        "worked on several large infrastructure projects in the region"]).end_date =
      (dW6 "Jan 2020 - Dec 2021").map Prod.snd ∧
     (parse_experience_block dW6 ["Jan 2020 - Dec 2021", "Site Engineer",
        "worked on several large infrastructure projects in the region"]).job_title =
      (if pyTruthyStr (if pyStrIn "|" "Jan 2020 - Dec 2021" then
          some (pyStrip (String.mk (splitAtPipe ("Jan 2020 - Dec 2021").data).1)) else none) then
        (if pyStrIn "|" "Jan 2020 - Dec 2021" then
          some (pyStrip (String.mk (splitAtPipe ("Jan 2020 - Dec 2021").data).1)) else none)
       else ((["Jan 2020 - Dec 2021", "Site Engineer",
          "worked on several large infrastructure projects in the region"].take 3).find?
            title_line_test).map pyStrip) ∧
     (parse_experience_block dW6 ["Jan 2020 - Dec 2021", "Site Engineer",
        "worked on several large infrastructure projects in the region"]).company =
      (if pyTruthyStr (if pyStrIn "|" "Jan 2020 - Dec 2021" then
          some (pyStrip (String.mk (splitAtPipe ("Jan 2020 - Dec 2021").data).2)) else none) then
        (if pyStrIn "|" "Jan 2020 - Dec 2021" then
          some (pyStrip (String.mk (splitAtPipe ("Jan 2020 - Dec 2021").data).2)) else none)
       else ((["Jan 2020 - Dec 2021", "Site Engineer",
          "worked on several large infrastructure projects in the region"].take 3).find?
            company_line_test).map pyStrip)) :=
  ⟨by decide,
    experience_block_first_match_wins dW6 linesW6 "Jan 2020 - Dec 2021"
      ["Site Engineer", "worked on several large infrastructure projects in the region"]
      (by decide)⟩

/-! ## Claim C3 — totality of ATSParser.parse (app/services/ats_parser.py)

The fixed, literal regular expressions of the parser are abstracted as
an oracle of total search functions (a compiled pattern's search never
raises); the two places where the code BUILDS patterns from data — the
skill/tool dictionary terms interpolated into \b…\b and the site
keywords interpolated into the location pattern — are modelled with an
explicit compile-validity check reflecting the Python ≥3.11 `re`
quantifier rules (a quantifier needs a preceding repeatable atom;
exactly one lazy `?` or possessive `+` modifier may follow a
quantifier, so "c++" compiles as a possessive repeat).  Guarded
indexing (`line.split()[0][0]`, `block[0]`) is modelled as an explicit
error that the guards must rule out. -/

/-- `get_skills_dict` from app/services/dictionaries.py. -/
def get_skills_dict : List String :=
  ["python", "java", "javascript", "typescript", "c++", "c#", "php", "ruby", "go", "rust",
   "html", "css", "react", "vue", "angular", "node.js", "django", "flask", "fastapi",
   "next.js", "express", "spring", "asp.net",
   "bim", "revit", "autocad", "navisworks", "3ds max", "sketchup", "rhinoceros",
   "archicad", "civil 3d", "infraworks", "lumion", "enscape",
   "project management", "agile", "scrum", "kanban", "jira", "asana", "trello",
   "sql", "postgresql", "mysql", "mongodb", "redis", "elasticsearch",
   "data analysis", "machine learning", "deep learning", "tensorflow", "pytorch",
   "aws", "azure", "gcp", "docker", "kubernetes", "terraform", "jenkins", "gitlab ci",
   "photoshop", "illustrator", "figma", "sketch", "adobe xd", "indesign",
   "microsoft office", "excel", "powerpoint", "word", "google workspace",
   "communication", "leadership", "teamwork", "problem solving"]

/-- `SITE_LOCATION_KEYWORDS` from ats_parser.py. -/
def SITE_LOCATION_KEYWORDS : List String :=
  ["riyadh", "dubai", "abu dhabi", "doha", "jeddah", "mecca", "medina",
   "sharjah", "muscat", "manama", "kuwait", "gcc", "saudi", "uae", "qatar",
   "oman", "bahrain", "ksa", "usa", "uk", "india", "location", "site"]

/-- Validity of the pattern `\b{term}\b` under Python ≥3.11 `re`
quantifier rules, for terms over the dictionary alphabet (letters,
digits, space, and the literals # . - /).  State: `qs` counts the
quantifiers ending the prefix (0, 1, or 2 = quantifier plus modifier);
`hasAtom` records whether a repeatable atom precedes (the leading \b
assertion is not repeatable). -/
def termPatternOkAux : ℕ → Bool → List Char → Bool
  | _, _, [] => true
  | qs, hasAtom, c :: rest =>
    if c = '+' ∨ c = '*' ∨ c = '?' then
      if qs = 0 then (if hasAtom then termPatternOkAux 1 hasAtom rest else false)
      else if qs = 1 then
        (if c = '?' ∨ c = '+' then termPatternOkAux 2 hasAtom rest else false)
      else false
    else termPatternOkAux 0 true rest

def term_pattern_valid (s : String) : Bool :=
  termPatternOkAux 0 false s.data

/-- Validity of the interpolated location pattern
([A-Za-z\s]+(?:,\s*)?{kw}[^,\n]*(?:\([^)]+\))?): a keyword of plain
letters and spaces interpolates to a valid pattern. -/
def locPatternOk (kw : String) : Bool :=
  kw.data.all (fun c => c.isAlpha || c = ' ')

/-- The compiled-pattern searches of ATSParser, abstracted.  Functions
returning `Option` model `re.search`/`re.match` group extraction
(`none` = no match); list-returning functions model `re.findall`;
string-returning functions model `re.sub`. -/
structure ReOracle where
  searchEmail : String → Option String
  findPhones : String → List String
  searchLinkedin : String → Option String
  findUrls : String → List String
  searchDate : String → Option (String × String)
  searchTerm : String → String → Bool
  pageMatch : String → Bool
  yearFindall : String → List String
  isProjectHeader : String → Bool
  isSectionEnd : String → Bool
  startsWithNumber : String → Bool
  looksLikeProjectHeader : String → Bool
  cleanNumbering : String → String
  projectNameMatch : String → Option String
  projectColonMatch : String → Option String
  locationColonMatch : String → Option String
  trailingCommaLocation : String → Option String
  locKeywordMatch : String → String → Option String
  roleColonMatch : String → Option String
  asRoleMatch : String → Option String
  yearRangeMatch : String → Option (String × String)
  durationMatch : String → Option String
  yearRangeOptMatch : String → Option (String × Option String)
  singleYear : String → Option String
  cleanBulletDash : String → String
  cleanEBullet : String → String

/-- `ATSParser._clean_lines`. -/
def clean_lines (o : ReOracle) (lines : List String) : List String :=
  (lines.map pyStrip).filter (fun line =>
    !line.isEmpty && !(line.startsWith "--- Page" || o.pageMatch line))

/-- The guarded `line.split()[0][0].isupper()` of `_extract_name`,
with the two indexings made explicitly fallible. -/
def first_word_first_char_upper (line : String) : Except Unit Bool :=
  match pySplitWs line with
  | [] => Except.error ()
  | w :: _ =>
    match w.data with
    | [] => Except.error ()
    | c :: _ => Except.ok c.isUpper

/-- The loop of `ATSParser._extract_name` (over the first 8 lines). -/
def extract_name_loop : List String → Except Unit (Option String)
  | [] => Except.ok none
  | line :: rest =>
    if ["email", "phone", "linkedin"].any (fun x => pyStrIn x (pyLower line)) then
      extract_name_loop rest
    else if 2 ≤ (pySplitWs line).length ∧ (pySplitWs line).length ≤ 4 then do
      let up ← first_word_first_char_upper line
      if up then return (some line) else extract_name_loop rest
    else extract_name_loop rest

def extract_name (lines : List String) : Except Unit (Option String) :=
  extract_name_loop (lines.take 8)

/-- `ATSParser._extract_email`. -/
def extract_email (o : ReOracle) (text : String) : Option String :=
  o.searchEmail text

/-- `ATSParser._extract_phone`. -/
def extract_phone (o : ReOracle) (text : String) : Option String :=
  (o.findPhones text).findSome? (fun raw =>
    let cleaned := String.mk (raw.data.filter (fun c => c.isDigit || c = '+'))
    if 10 ≤ cleaned.data.length then some cleaned else none)

def extract_linkedin (o : ReOracle) (text : String) : Option String :=
  o.searchLinkedin text

def extract_urls (o : ReOracle) (text : String) : List String :=
  o.findUrls text

/-- The loop of `ATSParser._extract_summary`: skip ignore-keyword
lines; collect lines of at least 8 words; after each non-skipped line,
stop once three are collected. -/
def summary_loop (acc : List String) : List String → List String
  | [] => acc
  | line :: rest =>
    if ["phone", "email", "linkedin", "dob", "india", "uae"].any
        (fun k => pyStrIn k (pyLower line)) then
      summary_loop acc rest
    else
      let acc2 := if 8 ≤ (pySplitWs line).length then acc ++ [line] else acc
      if 3 ≤ acc2.length then acc2 else summary_loop acc2 rest

def extract_summary (lines : List String) : Option String :=
  let s := summary_loop [] (lines.take 15)
  if s.isEmpty then none else some (" ".intercalate s)

structure EduEntry where
  degree : String
  university : Option String
  year : Option String

/-- `ATSParser._extract_education`; the source's findall of
`(19|20)\d{2}` returns the captured two-character century prefixes,
modelled by the oracle's `yearFindall`. -/
def extract_education (o : ReOracle) (lines : List String) : List EduEntry :=
  lines.filterMap (fun line =>
    if ["bachelor", "master", "b.e", "civil engineering"].any
        (fun k => pyStrIn k (pyLower line)) then
      some ⟨pyStrip line, none, (o.yearFindall line).head?⟩
    else none)

/-- `ATSParser._extract_skills`: each dictionary term is interpolated
unescaped into `\b{term}\b`; compilation of every term's pattern must
succeed, else `re.error` propagates.  The matching terms are collected
as a set. -/
def extract_skills (o : ReOracle) (skills_dict : List String) (text : String) :
    Except Unit (List String) :=
  let tl := pyLower text
  if skills_dict.all term_pattern_valid then
    Except.ok (setList (skills_dict.filter (fun s => o.searchTerm s tl)).toFinset)
  else Except.error ()

/-- `ATSParser._extract_tools` (same shape as `_extract_skills`). -/
def extract_tools (o : ReOracle) (tools_dict : List String) (text : String) :
    Except Unit (List String) :=
  let tl := pyLower text
  if tools_dict.all term_pattern_valid then
    Except.ok (setList (tools_dict.filter (fun t => o.searchTerm t tl)).toFinset)
  else Except.error ()

def extract_certifications (lines : List String) : List String :=
  (lines.filter (fun line => pyStrIn "cert" (pyLower line))).map pyStrip

/-- `ATSParser._detect_discipline`. -/
def detect_discipline (text : String) : String :=
  let tl := pyLower text
  match ([("Civil Engineering", ["civil", "structural", "construction"]),
          ("BIM", ["bim", "revit", "navisworks"]),
          ("Architecture", ["architect", "architecture"])] :
      List (String × List String)).find? (fun p => p.2.any (fun k => pyStrIn k tl)) with
  | some p => p.1
  | none => "Civil Engineering"

/-- `ATSParser._detect_position`. -/
def detect_position (lines : List String) : Option String :=
  ((lines.take 20).find? (fun line =>
    ROLE_KEYWORDS.any (fun r => pyStrIn r (pyLower line)) &&
      (pySplitWs line).length ≤ 7)).map pyStrip

/-- `_parse_experience_block` with the `block[0]` access made
explicitly fallible (the segmentation only produces non-empty
blocks). -/
def parse_experience_block_checked (d : String → Option (String × String))
    (block : List String) : Except Unit ExpJob :=
  match block with
  | [] => Except.error ()
  | _ :: _ => Except.ok (parse_experience_block d block)

/-- The per-block parsing loop of `_extract_experience`. -/
def parse_blocks_loop (d : String → Option (String × String)) :
    List (List String) → Except Unit (List ExpJob)
  | [] => Except.ok []
  | b :: bs => do
    let j ← parse_experience_block_checked d b
    let rest ← parse_blocks_loop d bs
    return j :: rest

/-- `ATSParser._extract_experience` over the fallible block parser. -/
def extract_experience_checked (d : String → Option (String × String))
    (lines : List String) : Except Unit (List ExpJob) := do
  let parsed ← parse_blocks_loop d (extract_experience_blocks d lines)
  return parsed.filter (fun j => pyTruthyStr j.start_date)

/-! ### Project extraction (`_extract_projects`, `_parse_project_block`,
`_is_valid_project`) -/

/-- The strong-project test of `_extract_projects`: a building-type
keyword together with a location keyword or a project-header shape. -/
def strong_project (o : ReOracle) (line : String) : Bool :=
  let ll := pyLower line
  let has_building_type := ["hotel", "tower", "building", "residence", "mall", "airport",
    "hospital", "villa", "stadium", "bridge"].any (fun k => pyStrIn k ll)
  let has_location := ["riyadh", "dubai", "abu dhabi", "doha", "jeddah", "usa", "uae",
    "gcc", "ksa"].any (fun k => pyStrIn k ll)
  has_building_type && (has_location || o.looksLikeProjectHeader line)

/-- The block-grouping loop of `_extract_projects`: section headers
open the project section and flush; section-end headers close it and
flush; inside the section a numbered or strong line starts a new block
when one is open; outside the section only strong lines start
(single-line accumulating) blocks and other lines are dropped. -/
def project_blocks_go (o : ReOracle) (inSec : Bool) (cur : List String)
    (acc : List (List String)) : List String → List (List String)
  | [] => acc ++ (if cur.isEmpty then [] else [cur])
  | line :: rest =>
    let ll := pyLower line
    if o.isProjectHeader ll then
      project_blocks_go o true [] (acc ++ if cur.isEmpty then [] else [cur]) rest
    else if inSec && o.isSectionEnd ll then
      project_blocks_go o false [] (acc ++ if cur.isEmpty then [] else [cur]) rest
    else
      let is_project_start := o.startsWithNumber line || (inSec && strong_project o line)
      if inSec then
        (if is_project_start && !cur.isEmpty then
          project_blocks_go o true [line] (acc ++ [cur]) rest
         else project_blocks_go o true (cur ++ [line]) acc rest)
      else if strong_project o line then
        project_blocks_go o false [line] (acc ++ if cur.isEmpty then [] else [cur]) rest
      else project_blocks_go o false cur acc rest

def project_blocks (o : ReOracle) (lines : List String) : List (List String) :=
  project_blocks_go o false [] [] lines

structure Project where
  project_name : Option String
  site_name : Option String
  role : Option String
  responsibilities : List String
  duration_start : Option String
  duration_end : Option String

/-- Two consecutive uppercase letters (`[A-Z]{2,}`). -/
def hasTwoConsecUpper : List Char → Bool
  | a :: b :: rest => (a.isUpper && b.isUpper) || hasTwoConsecUpper (b :: rest)
  | _ => false

/-- One iteration of the project-name loop of `_parse_project_block`
(pattern 1: header shape; pattern 2: "project:" label; pattern 3: a
building-type line in title case). -/
def project_name_from_line (o : ReOracle) (line : String) : Option String :=
  let ll := pyLower line
  let cleaned := pyStrip (o.cleanNumbering line)
  match o.projectNameMatch cleaned with
  | some nm => some (pyStrip nm)
  | none =>
    let viaColon :=
      if pyStrIn "project" ll && pyStrIn ":" line then
        match o.projectColonMatch cleaned with
        | some potential =>
          if 2 ≤ (pySplitWs potential).length ∧ (pySplitWs potential).length ≤ 15 then
            some (pyStrip potential)
          else none
        | none => none
      else none
    match viaColon with
    | some nm => some nm
    | none =>
      if ["hotel", "tower", "building", "residence", "mall", "airport", "hospital",
          "villa", "stadium", "bridge"].any (fun k => pyStrIn k ll) &&
          hasTwoConsecUpper cleaned.data &&
          (3 ≤ (pySplitWs cleaned).length && (pySplitWs cleaned).length ≤ 20) then
        some cleaned
      else none

/-- One iteration of the site-name loop (pattern 1: location label;
pattern 2: trailing comma location on a dashed header; pattern 3: the
per-keyword interpolated pattern, whose compilation validity is
checked by the caller). -/
def site_from_line (o : ReOracle) (line : String) : Option String :=
  match o.locationColonMatch line with
  | some g => some (pyStrip g)
  | none =>
    let fromHeader :=
      if pyStrIn "—" line || pyStrIn " - " line then
        match o.trailingCommaLocation line with
        | some potential =>
          if SITE_LOCATION_KEYWORDS.any (fun lk => pyStrIn lk (pyLower potential)) then
            some (pyStrip potential)
          else none
        | none => none
      else none
    match fromHeader with
    | some s => some s
    | none =>
      SITE_LOCATION_KEYWORDS.findSome? (fun kw =>
        if pyStrIn kw (pyLower line) then (o.locKeywordMatch kw line).map pyStrip
        else none)

/-- The bullet-line test `^\s*[-•*e]\s`. -/
def bulletStart (line : String) : Bool :=
  match line.data.dropWhile Char.isWhitespace with
  | c :: c2 :: _ => (c = '-' || c = '•' || c = '*' || c = 'e') && c2.isWhitespace
  | _ => false

/-- One iteration of the role loop of `_parse_project_block`. -/
def role_from_line (o : ReOracle) (line : String) : Option String :=
  let ll := pyLower line
  let viaLabel :=
    match o.roleColonMatch line with
    | some potential =>
      if 2 ≤ (pySplitWs potential).length ∧ (pySplitWs potential).length ≤ 7 then
        some (pyStrip potential)
      else none
    | none => none
  match viaLabel with
  | some r => some r
  | none =>
    if ROLE_KEYWORDS.any (fun r => pyStrIn r ll) then
      if 2 ≤ (pySplitWs line).length ∧ (pySplitWs line).length ≤ 7 then
        if !bulletStart line &&
            !(["developed", "managed", "created", "performed", "produced"].any
              (fun p => ll.startsWith p)) then
          if !(COMPANY_KEYWORDS.any (fun k => pyStrIn k ll)) &&
              !(["hotel", "tower", "building", "mall"].any (fun b => pyStrIn b ll)) then
            some (pyStrip line)
          else none
        else none
      else none
    else none

/-- One iteration of the duration loop (pattern 1: DATE_PATTERN;
pattern 2: a year range; pattern 3: a labelled duration re-parsed for
an optional year range). -/
def duration_from_line (o : ReOracle) (line : String) :
    Option (String × Option String) :=
  match o.searchDate line with
  | some g => some (g.1, some g.2)
  | none =>
    match o.yearRangeMatch line with
    | some g => some (g.1, some g.2)
    | none =>
      match o.durationMatch line with
      | some duration_text0 =>
        match o.yearRangeOptMatch (pyStrip duration_text0) with
        | some (y1, y2) => some (y1, y2)
        | none => none
      | none => none

/-- The responsibility filter of `_parse_project_block`. -/
def responsibility_of_line (o : ReOracle) (p_name site role : Option String)
    (line : String) : Option String :=
  let ll := pyLower line
  let cleaned := pyStrip (o.cleanNumbering (pyStrip (o.cleanEBullet
    (pyStrip (o.cleanBulletDash line)))))
  if (match p_name with | some nm => pyStrIn nm line | none => false) then none
  else if (match site with | some s => s == line | none => false) ||
      (match role with | some r => r == line | none => false) then none
  else if (o.searchDate line).isSome then none
  else if ["hotel", "tower", "building", "residence", "mall", "airport"].any
      (fun bk => pyStrIn bk ll) && (pySplitWs line).length < 8 then none
  else if ["responsible", "developed", "managed", "coordinated", "designed",
      "created", "implemented", "executed", "delivered", "led", "performed"].any
      (fun kw => pyStrIn kw ll) || 8 ≤ (pySplitWs cleaned).length then
    some cleaned
  else none

/-- `ATSParser._parse_project_block`. -/
def parse_project_block (o : ReOracle) (block : List String) : Project :=
  let nameFromLoop := (block.take 3).findSome? (project_name_from_line o)
  let project_name :=
    match nameFromLoop with
    | some nm => some nm
    | none =>
      match block with
      | [] => none
      | first :: _ =>
        let cleaned_first := pyStrip (o.cleanNumbering first)
        if (3 ≤ (pySplitWs cleaned_first).length ∧ (pySplitWs cleaned_first).length ≤ 15) ∧
            cleaned_first.data.any Char.isUpper then
          some cleaned_first
        else none
  let site_name := block.findSome? (site_from_line o)
  let role0 := block.findSome? (role_from_line o)
  let role :=
    match role0 with
    | some r => some r
    | none =>
      block.findSome? (fun line =>
        (o.asRoleMatch line).bind (fun g =>
          let potential := pyStrip g
          if ROLE_KEYWORDS.any (fun r => pyStrIn r (pyLower potential)) then some potential
          else none))
  let dur0 := block.findSome? (duration_from_line o)
  let duration_start :=
    match dur0 with
    | some p => some p.1
    | none =>
      match (block.take 5).findSome? (fun line => o.singleYear line) with
      | some y => some y
      | none => none
  let duration_end :=
    match dur0 with
    | some p => p.2
    | none => none
  let responsibilities :=
    block.filterMap (responsibility_of_line o project_name site_name role)
  ⟨project_name, site_name, role, responsibilities, duration_start, duration_end⟩

/-- `ATSParser._is_valid_project`. -/
def is_valid_project (p : Project) : Bool :=
  if !pyTruthyStr p.project_name then false
  else
    let name := p.project_name.getD ""
    let wc := (pySplitWs name).length
    if wc < 2 || 25 < wc then false
    else if ["bachelor", "master", "education", "certification", "skill",
        "experience", "work history", "professional", "summary",
        "microsoft", "adobe", "autodesk", "software", "tools",
        "supporting sustainable", "cms college", "graduated"].any
        (fun fp => pyStrIn fp (pyLower name)) then false
    else pyTruthyStr p.site_name || pyTruthyStr p.role ||
      pyTruthyStr p.duration_start || !p.responsibilities.isEmpty

/-- `ATSParser._extract_projects`: the interpolated location patterns
must compile (they do for the fixed keyword list), then each non-empty
block is parsed and validated. -/
def extract_projects (o : ReOracle) (lines : List String) :
    Except Unit (List Project) :=
  if SITE_LOCATION_KEYWORDS.all locPatternOk then
    Except.ok ((project_blocks o lines).filterMap (fun block =>
      if block.isEmpty then none
      else
        let p := parse_project_block o block
        if is_valid_project p then some p else none))
  else Except.error ()

/-! ### Totality of the parser -/

lemma wordsAux_ne_nil : ∀ (l acc : List Char), ∀ w ∈ wordsAux l acc, w ≠ []
  | [], acc, w, hw => by
    simp only [wordsAux] at hw
    split_ifs at hw with h
    · cases hw
    · rw [List.mem_singleton] at hw
      subst hw
      rw [ne_eq, List.reverse_eq_nil_iff]
      simpa [List.isEmpty_iff] using h
  | c :: rest, acc, w, hw => by
    simp only [wordsAux] at hw
    split_ifs at hw with h1 h2
    · exact wordsAux_ne_nil rest [] w hw
    · rcases List.mem_cons.mp hw with rfl | hw2
      · rw [ne_eq, List.reverse_eq_nil_iff]
        simpa [List.isEmpty_iff] using h2
      · exact wordsAux_ne_nil rest [] w hw2
    · exact wordsAux_ne_nil rest (c :: acc) w hw

lemma pySplitWs_words_ne_empty (line : String) : ∀ w ∈ pySplitWs line, w.data ≠ [] := by
  intro w hw
  obtain ⟨u, hu, rfl⟩ := List.mem_map.mp hw
  simpa using wordsAux_ne_nil line.data [] u hu

lemma first_word_first_char_upper_ok (line : String)
    (h2 : 2 ≤ (pySplitWs line).length) :
    ∃ b, first_word_first_char_upper line = Except.ok b := by
  unfold first_word_first_char_upper
  cases hw : pySplitWs line with
  | nil => rw [hw] at h2; simp at h2
  | cons w ws =>
    have hne : w.data ≠ [] :=
      pySplitWs_words_ne_empty line w (hw ▸ List.mem_cons_self w ws)
    cases hd : w.data with
    | nil => exact absurd hd hne
    | cons c cs =>
      refine ⟨c.isUpper, ?_⟩
      simp only [hd]

lemma extract_name_loop_ok : ∀ ls : List String, ∃ v, extract_name_loop ls = Except.ok v
  | [] => ⟨none, rfl⟩
  | line :: rest => by
    simp only [extract_name_loop]
    split_ifs with h1 h2
    · exact extract_name_loop_ok rest
    · obtain ⟨b, hb⟩ := first_word_first_char_upper_ok line h2.1
      obtain ⟨v, hv⟩ := extract_name_loop_ok rest
      rw [hb]
      cases b with
      | true => exact ⟨some line, rfl⟩
      | false => exact ⟨v, hv⟩
    · exact extract_name_loop_ok rest

lemma extract_name_ok (lines : List String) : ∃ v, extract_name lines = Except.ok v :=
  extract_name_loop_ok (lines.take 8)

lemma mkBlocksAux_ne_nil (d : String → Option (String × String)) :
    ∀ (ls cur : List String), ∀ b ∈ mkBlocksAux d cur ls, b ≠ []
  | [], cur, b, hb => by
    simp only [mkBlocksAux] at hb
    split_ifs at hb with h
    · cases hb
    · rw [List.mem_singleton] at hb
      subst hb
      simpa [List.isEmpty_iff] using h
  | x :: rest, cur, b, hb => by
    simp only [mkBlocksAux] at hb
    split_ifs at hb with h1 h2
    · exact mkBlocksAux_ne_nil d rest [x] b hb
    · rcases List.mem_cons.mp hb with rfl | hb2
      · simpa [List.isEmpty_iff] using h2
      · exact mkBlocksAux_ne_nil d rest [x] b hb2
    · exact mkBlocksAux_ne_nil d rest (cur ++ [x]) b hb

lemma parse_blocks_loop_ok (d : String → Option (String × String)) :
    ∀ blocks : List (List String), (∀ b ∈ blocks, b ≠ []) →
      ∃ v, parse_blocks_loop d blocks = Except.ok v
  | [], _ => ⟨[], rfl⟩
  | b :: bs, h => by
    obtain ⟨v, hv⟩ := parse_blocks_loop_ok d bs
      (fun x hx => h x (List.mem_cons_of_mem b hx))
    have hb : b ≠ [] := h b (List.mem_cons_self b bs)
    cases b with
    | nil => exact absurd rfl hb
    | cons x xs =>
      refine ⟨parse_experience_block d (x :: xs) :: v, ?_⟩
      simp only [parse_blocks_loop, parse_experience_block_checked, hv]
      rfl

lemma extract_experience_checked_ok (d : String → Option (String × String))
    (lines : List String) :
    ∃ v, extract_experience_checked d lines = Except.ok v := by
  obtain ⟨v, hv⟩ := parse_blocks_loop_ok d (extract_experience_blocks d lines)
    (mkBlocksAux_ne_nil d lines [])
  refine ⟨v.filter (fun j => pyTruthyStr j.start_date), ?_⟩
  simp only [extract_experience_checked, hv]
  rfl

lemma skills_dict_valid : (get_skills_dict.map pyLower).all term_pattern_valid = true := by
  decide

lemma tools_dict_valid : (get_tools_dict.map pyLower).all term_pattern_valid = true := by
  decide

lemma site_keywords_valid : SITE_LOCATION_KEYWORDS.all locPatternOk = true := by decide

structure ParseResult where
  name : Option String
  email : Option String
  phone : Option String
  linkedin : Option String
  portfolio_urls : List String
  summary : Option String
  experience : List ExpJob
  education : List EduEntry
  skills : List String
  tools : List String
  projects : List Project
  certifications : List String
  discipline : String
  position : Option String

/-- `ATSParser.parse` with the default dictionaries (the constructor
lowercases `get_skills_dict()` and `get_tools_dict()`). -/
def ats_parse (o : ReOracle) (text : String) : Except Unit ParseResult := do
  let lines := clean_lines o (text.splitOn "\n")
  let name ← extract_name lines
  let experience ← extract_experience_checked o.searchDate lines
  let skills ← extract_skills o (get_skills_dict.map pyLower) text
  let tools ← extract_tools o (get_tools_dict.map pyLower) text
  let projects ← extract_projects o lines
  return { name := name
           email := extract_email o text
           phone := extract_phone o text
           linkedin := extract_linkedin o text
           portfolio_urls := extract_urls o text
           summary := extract_summary lines
           experience := experience
           education := extract_education o lines
           skills := skills
           tools := tools
           projects := projects
           certifications := extract_certifications lines
           discipline := detect_discipline text
           position := detect_position lines }

/-- C3: for every input text and every behaviour of the compiled-regex
searches, `ATSParser.parse` with the default dictionaries returns a
result and never raises: the guarded indexings are proven unreachable,
absence of a match always yields a null/empty field, and every
dynamically built pattern — each `\b{term}\b` over the default
skill/tool dictionaries (including the possessive "c++" term, valid on
the Python ≥3.11 runtime modelled here) and each interpolated site
keyword pattern — compiles. -/
theorem ats_parse_never_raises (o : ReOracle) (text : String) :
    (ats_parse o text).isOk = true := by
  obtain ⟨n, hn⟩ := extract_name_ok (clean_lines o (text.splitOn "\n"))
  obtain ⟨ex, hex⟩ := extract_experience_checked_ok o.searchDate
    (clean_lines o (text.splitOn "\n"))
  have hsk : extract_skills o (get_skills_dict.map pyLower) text =
      Except.ok (setList ((get_skills_dict.map pyLower).filter
        (fun s => o.searchTerm s (pyLower text))).toFinset) := by
    simp only [extract_skills, skills_dict_valid, if_true]
  have htl : extract_tools o (get_tools_dict.map pyLower) text =
      Except.ok (setList ((get_tools_dict.map pyLower).filter
        (fun t => o.searchTerm t (pyLower text))).toFinset) := by
    simp only [extract_tools, tools_dict_valid, if_true]
  have hpr : extract_projects o (clean_lines o (text.splitOn "\n")) =
      Except.ok ((project_blocks o (clean_lines o (text.splitOn "\n"))).filterMap
        (fun block =>
          if block.isEmpty then none
          else
            let p := parse_project_block o block
            if is_valid_project p then some p else none)) := by
    simp only [extract_projects, site_keywords_valid, if_true]
  simp only [ats_parse, hn, hex, hsk, htl, hpr]
  rfl

end CVScreen
